import Mathlib

/-!
Formal model of the CMake-server protocol client in
`conans/client/cmake_server.py`.

The Python source is shallowly embedded: strings on the wire are `List Char`
(Python `str` is a sequence of code points), JSON documents are the inductive
type `Json` below (numbers are modelled as integers; the client never
produces floating-point literals, and IEEE floats are outside the model),
Python dictionaries are ordered association lists, the subprocess handle is a
record holding the polled exit status, and every fallible operation returns
`Except Err`.  Definitions follow the source line by line; each one cites the
Python function it embeds.
-/

namespace CMakeServerSpec

/-- Left brace character (kept out of literals via its code point). -/
def lbrace : Char := '\x7b'

/-- Right brace character (kept out of literals via its code point). -/
def rbrace : Char := '\x7d'

/-! ### Decimal digits

Python's `json.dumps` renders integers with `int.__repr__`: most significant
digit first, a leading `-` for negatives, no leading zeros.  `natDigits`
reproduces that rendering for naturals. -/

/-- Decimal digit string of a natural number, most significant digit first,
as Python `repr` produces it. -/
def natDigits (n : Nat) : List Char :=
  if _h : n < 10 then [Nat.digitChar n]
  else natDigits (n / 10) ++ [Nat.digitChar (n % 10)]
termination_by n
decreasing_by exact Nat.div_lt_self (by omega) (by omega)

/-- Integer rendering as Python `repr` produces it. -/
def intRepr : Int → List Char
  | .ofNat m => natDigits m
  | .negSucc m => '-' :: natDigits (m + 1)

/-! ### Decimal parsing (the integer part of `json`'s `NUMBER_RE`). -/

/-- Splits off the longest leading run of decimal digits. -/
def spanDigits : List Char → List Char × List Char
  | [] => ([], [])
  | c :: rest =>
    if c.isDigit then
      let p := spanDigits rest
      (c :: p.1, p.2)
    else ([], c :: rest)

/-- Value of a digit string, most significant digit first. -/
def digitsToNat (ds : List Char) : Nat :=
  ds.foldl (fun acc c => acc * 10 + (c.toNat - 48)) 0

/-! ### Hexadecimal helpers for the `\uXXXX` escapes of `json.dumps`
(`ensure_ascii=True`, the default used by `_issue_command`). -/

/-- Numeric value of one hexadecimal digit character (either case accepted,
as `json.loads` does). -/
def hexVal (c : Char) : Option Nat :=
  if c.isDigit then some (c.toNat - 48)
  else if 'a' ≤ c ∧ c ≤ 'f' then some (c.toNat - 87)
  else if 'A' ≤ c ∧ c ≤ 'F' then some (c.toNat - 55)
  else none

/-- Four lowercase hex digits, as Python's `'\\u%04x'` formatting emits. -/
def hex4 (n : Nat) : List Char :=
  [Nat.digitChar (n / 4096 % 16), Nat.digitChar (n / 256 % 16),
   Nat.digitChar (n / 16 % 16), Nat.digitChar (n % 16)]

/-- Reads four hex digit characters into a number below 0x10000. -/
def readHex4 (a b c d : Char) : Option Nat :=
  match hexVal a, hexVal b, hexVal c, hexVal d with
  | some x, some y, some z, some w => some (x * 4096 + y * 256 + z * 16 + w)
  | _, _, _, _ => none

/-! ### String escaping

`_issue_command` calls `json.dumps(command)` with default arguments, in
particular `ensure_ascii=True`: `"` and `\` and the short control escapes use
their two-character forms, other control characters and every non-ASCII
character become `\uXXXX` (a surrogate pair for code points above 0xFFFF). -/

/-- Escape of a single character as `json.dumps` (default flags) emits it. -/
def escChar (c : Char) : List Char :=
  if c = '"' then ['\\', '"']
  else if c = '\\' then ['\\', '\\']
  else if c = '\n' then ['\\', 'n']
  else if c = '\r' then ['\\', 'r']
  else if c = '\t' then ['\\', 't']
  else if c = '\x08' then ['\\', 'b']
  else if c = '\x0c' then ['\\', 'f']
  else if c.toNat < 0x20 then '\\' :: 'u' :: hex4 c.toNat
  else if c.toNat < 0x7f then [c]
  else if c.toNat < 0x10000 then '\\' :: 'u' :: hex4 c.toNat
  else
    ('\\' :: 'u' :: hex4 (0xD800 + (c.toNat - 0x10000) / 0x400)) ++
      ('\\' :: 'u' :: hex4 (0xDC00 + (c.toNat - 0x10000) % 0x400))

/-- Escape of a whole string body (the part between the quotes). -/
def escStr : List Char → List Char
  | [] => []
  | c :: rest => escChar c ++ escStr rest

/-- Internal parser error kind; `json_loads` collapses all of these into the
single `ValueError` that `json.loads` raises.  `floatLit` marks a
floating-point literal, which this integer-valued model does not cover. -/
inductive PErr
  | badSyntax
  | floatLit
  | fuelOut
  deriving DecidableEq

/-- Prepends a decoded character to the result of a string-body parse. -/
def pushChar (c : Char) :
    Except PErr (List Char × List Char) → Except PErr (List Char × List Char)
  | .ok (s, r) => .ok (c :: s, r)
  | .error e => .error e

mutual

/-- Body of a JSON string after the opening quote, as `json.loads` scans it
(strict mode: raw control characters are rejected).  Returns the decoded body
and the input after the closing quote.  One divergence from Python, noted
here: `json.loads` keeps an unpaired surrogate as a lone-surrogate code
point, which `Char` cannot represent; the model rejects it instead.
`json.dumps` output never contains an unpaired surrogate escape. -/
def parseStringBody : List Char → Except PErr (List Char × List Char)
  | [] => .error .badSyntax
  | c :: rest =>
    if c = '"' then .ok ([], rest)
    else if c = '\\' then parseEscape rest
    else if c.toNat < 0x20 then .error .badSyntax
    else pushChar c (parseStringBody rest)

/-- One backslash escape inside a JSON string. -/
def parseEscape : List Char → Except PErr (List Char × List Char)
  | [] => .error .badSyntax
  | e :: r =>
    if e = '"' then pushChar '"' (parseStringBody r)
    else if e = '\\' then pushChar '\\' (parseStringBody r)
    else if e = '/' then pushChar '/' (parseStringBody r)
    else if e = 'b' then pushChar '\x08' (parseStringBody r)
    else if e = 'f' then pushChar '\x0c' (parseStringBody r)
    else if e = 'n' then pushChar '\n' (parseStringBody r)
    else if e = 'r' then pushChar '\r' (parseStringBody r)
    else if e = 't' then pushChar '\t' (parseStringBody r)
    else if e = 'u' then parseUEscape r
    else .error .badSyntax

/-- A `\uXXXX` escape, possibly the high half of a surrogate pair. -/
def parseUEscape : List Char → Except PErr (List Char × List Char)
  | a :: b :: c :: d :: r =>
    match readHex4 a b c d with
    | none => .error .badSyntax
    | some n =>
      if 0xD800 ≤ n ∧ n < 0xDC00 then parseLowSurrogate n r
      else if 0xDC00 ≤ n ∧ n < 0xE000 then .error .badSyntax
      else pushChar (Char.ofNat n) (parseStringBody r)
  | _ => .error .badSyntax

/-- The low half of a surrogate pair following a high surrogate `hi`. -/
def parseLowSurrogate (hi : Nat) : List Char → Except PErr (List Char × List Char)
  | b1 :: b2 :: a :: b :: c :: d :: r =>
    if b1 = '\\' ∧ b2 = 'u' then
      match readHex4 a b c d with
      | none => .error .badSyntax
      | some lo =>
        if 0xDC00 ≤ lo ∧ lo < 0xE000 then
          pushChar (Char.ofNat (0x10000 + (hi - 0xD800) * 0x400 + (lo - 0xDC00)))
            (parseStringBody r)
        else .error .badSyntax
    else .error .badSyntax
  | _ => .error .badSyntax

end

/-! ### JSON documents

`Json` models the Python values that travel through `json.dumps` /
`json.loads` in `cmake_server.py`: `None`, booleans, integers, strings,
lists, and dictionaries (ordered association lists, as Python dictionaries
preserve insertion order).  Floating-point numbers do not occur in any
command this client builds and are outside the model. -/

inductive Json
  | null
  | bool (b : Bool)
  | num (n : Int)
  | str (s : List Char)
  | arr (xs : List Json)
  | obj (ms : List (List Char × Json))

/-- Ordered dictionary with string keys, the shape of every command the
client sends. -/
abbrev JDict := List (List Char × Json)

/-- Shorthand turning a string literal into its code-point list. -/
def strL (s : String) : List Char := s.data

/-- Python `d[k] = v`: replaces the value in place if the key is present
(keeping its position), otherwise appends the new pair. -/
def dictSet : JDict → List Char → Json → JDict
  | [], k, v => [(k, v)]
  | (k', v') :: rest, k, v =>
    if k' = k then (k, v) :: rest else (k', v') :: dictSet rest k v

/-- Python `k in d` for a string-keyed dictionary. -/
def hasKey (d : JDict) (k : List Char) : Bool := d.any (fun kv => kv.1 == k)

/-- Python `d[k]` lookup (first match; keys are unique in real dicts). -/
def lookupD : JDict → List Char → Option Json
  | [], _ => none
  | (k', v') :: rest, k => if k' = k then some v' else lookupD rest k

/-- Python `dict(pairs)`: insert the pairs left to right, later duplicates
overwriting earlier values in place.  `json.loads` builds every object
through this construction. -/
def pyDict (pairs : JDict) : JDict := pairs.foldl (fun d kv => dictSet d kv.1 kv.2) []

/-- Keys of an association list are pairwise distinct (as they are in any
value obtained from a real Python dictionary). -/
def nodupKeys : JDict → Bool
  | [] => true
  | (k, _) :: rest => rest.all (fun kv => !(kv.1 == k)) && nodupKeys rest

mutual

/-- Every object node of the document has pairwise distinct keys; true of
the image of any Python value under `json.dumps`'s data model. -/
def wfB : Json → Bool
  | .arr xs => wfArr xs
  | .obj ms => nodupKeys ms && wfMems ms
  | _ => true

def wfArr : List Json → Bool
  | [] => true
  | x :: t => wfB x && wfArr t

def wfMems : JDict → Bool
  | [] => true
  | (_, v) :: t => wfB v && wfMems t

end

mutual

/-- Embedding of `json.dumps(value)` with its default flags, exactly as
`_issue_command` invokes it: item separator `", "`, key separator `": "`,
`ensure_ascii=True`. -/
def json_dumps : Json → List Char
  | .null => strL "null"
  | .bool true => strL "true"
  | .bool false => strL "false"
  | .num n => intRepr n
  | .str s => '"' :: escStr s ++ ['"']
  | .arr xs => '[' :: dumpsElems xs ++ [']']
  | .obj ms => lbrace :: dumpsMembers ms ++ [rbrace]

/-- Array elements joined by `", "`. -/
def dumpsElems : List Json → List Char
  | [] => []
  | [x] => json_dumps x
  | x :: y :: rest => json_dumps x ++ ',' :: ' ' :: dumpsElems (y :: rest)

/-- Object members `"key": value` joined by `", "`. -/
def dumpsMembers : JDict → List Char
  | [] => []
  | [(k, v)] => '"' :: escStr k ++ '"' :: ':' :: ' ' :: json_dumps v
  | (k, v) :: m :: rest =>
    ('"' :: escStr k ++ '"' :: ':' :: ' ' :: json_dumps v) ++
      ',' :: ' ' :: dumpsMembers (m :: rest)

end

/-! ### The scanner of `json.loads` -/

/-- JSON whitespace, as `json.decoder.WHITESPACE` accepts it. -/
def isWs (c : Char) : Bool := (c == ' ') || (c == '\t') || (c == '\n') || (c == '\r')

/-- Skips leading whitespace. -/
def skipWs : List Char → List Char
  | [] => []
  | c :: rest => if isWs c then skipWs rest else c :: rest

/-- After the integer part of `NUMBER_RE`, one of these characters starts a
fraction or exponent, making the literal a float (outside this integer
model, reported as `PErr.floatLit`). -/
def floatFollows : List Char → Bool
  | c :: _ => (c == '.') || (c == 'e') || (c == 'E')
  | [] => false

/-- The characters allowed to follow a complete numeric literal in the
places the round-trip theorems use: anything that neither extends the digit
run nor opens a fraction/exponent. -/
def goodNextB : List Char → Bool
  | [] => true
  | c :: _ => !c.isDigit && !(c == '.') && !(c == 'e') && !(c == 'E')

/-- First characters that `json.scanner` hands to the number regex. -/
def isNumStart (c : Char) : Bool := (c == '-') || c.isDigit

/-- Integer part of Python's `NUMBER_RE`: `0` or a nonzero digit followed by
digits (a leading zero is never part of a longer literal). -/
def parseUIntPy : List Char → Except PErr (Nat × List Char)
  | [] => .error .badSyntax
  | c :: rest =>
    if c = '0' then .ok (0, rest)
    else if c.isDigit then
      let p := spanDigits rest
      .ok (digitsToNat (c :: p.1), p.2)
    else .error .badSyntax

/-- A signed integer literal as `json.loads` scans it; a following
fraction or exponent marks a float, which the model rejects. -/
def parseIntPy : List Char → Except PErr (Int × List Char)
  | [] => .error .badSyntax
  | c :: rest =>
    if c = '-' then
      match parseUIntPy rest with
      | .ok (m, r) => if floatFollows r then .error .floatLit else .ok (-(m : Int), r)
      | .error e => .error e
    else
      match parseUIntPy (c :: rest) with
      | .ok (m, r) => if floatFollows r then .error .floatLit else .ok ((m : Int), r)
      | .error e => .error e

mutual

/-- One JSON value, as `json.scanner`'s `_scan_once` dispatches on the first
character (which the caller has already stripped whitespace before).  The
fuel argument only bounds recursion depth; `json_loads` passes more fuel
than any input can consume. -/
def parseValue : Nat → List Char → Except PErr (Json × List Char)
  | 0, _ => .error .fuelOut
  | fuel + 1, input =>
    match input with
    | [] => .error .badSyntax
    | c :: rest =>
      if c = '"' then
        match parseStringBody rest with
        | .ok (s, r) => .ok (.str s, r)
        | .error e => .error e
      else if c = '[' then
        match skipWs rest with
        | [] => .error .badSyntax
        | d :: r2 =>
          if d = ']' then .ok (.arr [], r2)
          else
            match parseElems fuel (d :: r2) with
            | .ok (vs, r3) => .ok (.arr vs, r3)
            | .error e => .error e
      else if c = lbrace then
        match skipWs rest with
        | [] => .error .badSyntax
        | d :: r2 =>
          if d = rbrace then .ok (.obj [], r2)
          else
            match parseMembers fuel (d :: r2) with
            | .ok (ms, r3) => .ok (.obj (pyDict ms), r3)
            | .error e => .error e
      else if isNumStart c then
        match parseIntPy (c :: rest) with
        | .ok (n, r) => .ok (.num n, r)
        | .error e => .error e
      else if c = 'n' then
        match rest with
        | u :: l1 :: l2 :: r =>
          if u = 'u' ∧ l1 = 'l' ∧ l2 = 'l' then .ok (.null, r) else .error .badSyntax
        | _ => .error .badSyntax
      else if c = 't' then
        match rest with
        | r1 :: u1 :: e1 :: r =>
          if r1 = 'r' ∧ u1 = 'u' ∧ e1 = 'e' then .ok (.bool true, r) else .error .badSyntax
        | _ => .error .badSyntax
      else if c = 'f' then
        match rest with
        | a1 :: l1 :: s1 :: e1 :: r =>
          if a1 = 'a' ∧ l1 = 'l' ∧ s1 = 's' ∧ e1 = 'e' then .ok (.bool false, r)
          else .error .badSyntax
        | _ => .error .badSyntax
      else .error .badSyntax

/-- Elements of a nonempty array: value, then `,` (whitespace-padded) and
more elements, or `]`. -/
def parseElems : Nat → List Char → Except PErr (List Json × List Char)
  | 0, _ => .error .fuelOut
  | fuel + 1, input =>
    match parseValue fuel input with
    | .error e => .error e
    | .ok (v, r) =>
      match skipWs r with
      | [] => .error .badSyntax
      | d :: r2 =>
        if d = ']' then .ok ([v], r2)
        else if d = ',' then
          match parseElems fuel (skipWs r2) with
          | .ok (vs, r3) => .ok (v :: vs, r3)
          | .error e => .error e
        else .error .badSyntax

/-- Members of a nonempty object: `"key"`, `:`, value, then `,` and more
members or the closing brace. -/
def parseMembers : Nat → List Char → Except PErr (JDict × List Char)
  | 0, _ => .error .fuelOut
  | fuel + 1, input =>
    match input with
    | [] => .error .badSyntax
    | c :: rest =>
      if c = '"' then
        match parseStringBody rest with
        | .error e => .error e
        | .ok (k, r1) =>
          match skipWs r1 with
          | [] => .error .badSyntax
          | d :: r2 =>
            if d = ':' then
              match parseValue fuel (skipWs r2) with
              | .error e => .error e
              | .ok (v, r3) =>
                match skipWs r3 with
                | [] => .error .badSyntax
                | e2 :: r4 =>
                  if e2 = rbrace then .ok ([(k, v)], r4)
                  else if e2 = ',' then
                    match parseMembers fuel (skipWs r4) with
                    | .ok (ms, r5) => .ok ((k, v) :: ms, r5)
                    | .error e => .error e
                  else .error .badSyntax
            else .error .badSyntax
      else .error .badSyntax

end

/-- Embedding of `json.loads`: strip surrounding whitespace, scan one value,
and insist that nothing but whitespace follows (`Extra data` otherwise). -/
def json_loads (s : List Char) : Except PErr Json :=
  let t := skipWs s
  match parseValue (t.length + 1) t with
  | .error e => .error e
  | .ok (j, r) => if skipWs r = [] then .ok j else .error .badSyntax

/-! ### Line splitting

`readline` on a text-mode pipe returns each chunk up to and including a
newline; at end of stream it returns the trailing fragment and then `''`.
`splitLines` reproduces that decomposition of a byte stream. -/

/-- Splits a character stream into `readline` results (each keeping its
terminating newline; a final fragment without one is returned as is). -/
def splitLines : List Char → List (List Char)
  | [] => []
  | c :: rest =>
    if c = '\n' then ['\n'] :: splitLines rest
    else
      match splitLines rest with
      | [] => [[c]]
      | l :: ls => (c :: l) :: ls

/-! ### The protocol client

State and operations of `CMakeServer`.  Each `ConanException` raise site and
each Python runtime error reachable in the embedded code gets its own
constructor, so theorems can tell the failure modes apart. -/

inductive Err
  | usageError          -- "attempt to access cmake server outside of 'with' block"
  | serverExited        -- "CMake server exited unexpectedly"
  | malformedMessage    -- ValueError from json.loads
  | badHello            -- "expected 'hello', got ..."
  | noCompatibleProtocol -- "no 1.x protocol available"
  | unknownMessageType  -- "Unknown CMake message type ..."
  | serverRequestError  -- "CMake Server error" after a required call failed
  | keyError            -- Python KeyError: missing dictionary key
  | typeError           -- Python TypeError: operation on a wrong runtime type
  | attributeError      -- Python AttributeError: attribute access on None
  | noMoreMessages      -- modelling artifact: the message stream is exhausted
                        -- where the real client would block on the pipe
  deriving DecidableEq

/-- The `subprocess.Popen` handle as the client observes it: just the
`returncode` attribute that `poll` maintains. -/
structure Proc where
  returncode : Option Int
  deriving DecidableEq

/-- `Popen.poll()`: records the exit status once; the parameter `os` is the
status the operating system would report at this instant (`none` while the
process is still running). -/
def poll (p : Proc) (os : Option Int) : Proc :=
  match p.returncode with
  | some _ => p
  | none => ⟨os⟩

/-- `CMakeServer._check_server_liveliness`: raises on a missing handle or on
a recorded exit status; returns the polled handle otherwise. -/
def _check_server_liveliness (server : Option Proc) (os : Option Int) : Except Err Proc :=
  match server with
  | none => .error .usageError
  | some p =>
    match (poll p os).returncode with
    | some _ => .error .serverExited
    | none => .ok (poll p os)

/-- The exact header sentinel line, newline included, as `readline` returns
it and as `_get_next_object` compares it. -/
def headerLine : List Char := strL "[== \"CMake Server\" ==[" ++ ['\n']

/-- The exact footer sentinel line, newline included. -/
def footerLine : List Char := strL "]== \"CMake Server\" ==]" ++ ['\n']

/-- `CMakeServer._issue_command`: after the liveness check, the exact
character stream written to the server's stdin — the header line, the JSON
command serialized to one line, the footer line, and the extra blank line
from the final `write("\n")` — flushed as one unit. -/
def _issue_command (server : Option Proc) (os : Option Int) (command : Json) :
    Except Err (List Char) :=
  match _check_server_liveliness server os with
  | .error e => .error e
  | .ok _ => .ok (headerLine ++ json_dumps command ++ '\n' :: footerLine ++ ['\n'])

/-- First loop of `_get_next_object`: drop lines until the exact header
sentinel, re-checking liveness on every non-header line; if the stream ends
first, fall through with nothing consumed left (the source then parses the
empty accumulation and fails). -/
def scanHeader (server : Option Proc) (os : Option Int) :
    List (List Char) → Except Err (List (List Char))
  | [] => .ok []
  | l :: rest =>
    if l = headerLine then .ok rest
    else
      match _check_server_liveliness server os with
      | .error e => .error e
      | .ok _ => scanHeader server os rest

/-- Second loop of `_get_next_object`: accumulate lines verbatim until the
exact footer sentinel, appending each line before the liveness re-check as
the source does. -/
def readBody (server : Option Proc) (os : Option Int) :
    List (List Char) → List Char → Except Err (List Char × List (List Char))
  | [], acc => .ok (acc, [])
  | l :: rest, acc =>
    if l = footerLine then .ok (acc, rest)
    else
      match _check_server_liveliness server os with
      | .error e => .error e
      | .ok _ => readBody server os rest (acc ++ l)

/-- `CMakeServer._get_next_object` over the list of lines readable from the
server's stdout (each line as `readline` returns it, newline included; the
list ends where `readline` would return the empty string). -/
def _get_next_object (server : Option Proc) (os : Option Int)
    (lines : List (List Char)) : Except Err (Json × List (List Char)) :=
  match _check_server_liveliness server os with
  | .error e => .error e
  | .ok _ =>
    match scanHeader server os lines with
    | .error e => .error e
    | .ok rem =>
      match readBody server os rem [] with
      | .error e => .error e
      | .ok (body, rem2) =>
        match json_loads body with
        | .ok j => .ok (j, rem2)
        | .error _ => .error .malformedMessage

/-- `CMakeServer.__exit__`: poll the handle, call `terminate()` exactly when
`returncode != None`, and clear the stored handle.  Returns the new stored
handle and whether a terminate signal was sent; a missing handle reproduces
Python's `AttributeError` on `None.poll()`. -/
def exitServer (server : Option Proc) (os : Option Int) :
    Except Err (Option Proc × Bool) :=
  match server with
  | none => .error .attributeError
  | some p =>
    match (poll p os).returncode with
    | some _ => .ok (none, true)
    | none => .ok (none, false)

/-- Supported-protocol-version entry as the server's greeting carries it. -/
def mkVer (mj mn : Int) : Json :=
  .obj [(strL "major", .num mj), (strL "minor", .num mn)]

/-- Effect of one iteration of the version-selection loop on the
`(major, minor)` accumulator pair, for an entry `(p.1, p.2)`. -/
def verStep (acc : Int × Int) (p : Int × Int) : Int × Int :=
  if p.1 = 1 then (1, max acc.2 p.2) else acc

/-! ### The request/reply correlator

`_issue_command_and_await_reply` works on whole parsed messages; this layer
abstracts the pipe as the list of JSON objects that successive
`_get_next_object` calls return.  Liveness and framing live in the layer
above (`_get_next_object`, `_issue_command`). -/

/-- Events observable on the conanfile's output sink. -/
inductive OutEvent
  | info (s : List Char)    -- output.info(line)
  | writeln (v : Json)      -- output.writeln(result["message"])
  | errorLine (v : Json)    -- output.error("CMake Server: %s" % result["errorMessage"])

/-- Python `msg[k]` on a parsed message: `KeyError` when the key is missing,
`TypeError` when the message is not an object. -/
def jget (j : Json) (k : List Char) : Except Err Json :=
  match j with
  | .obj ms =>
    match lookupD ms k with
    | some v => .ok v
    | none => .error .keyError
  | _ => .error .typeError

/-- Python `v == s` for a string literal `s`: true exactly for an equal
string value (any other runtime type compares unequal). -/
def isStrEq (v : Json) (s : List Char) : Bool :=
  match v with
  | .str t => t == s
  | _ => false

/-- Python `v == n` for an integer literal `n`. -/
def isNumEq (v : Json) (n : Int) : Bool :=
  match v with
  | .num m => m == n
  | _ => false

/-- The wait loop of `_issue_command_and_await_reply`: consume messages
until a terminal one carrying the call's cookie arrives.  Returns the output
events emitted on the way and either the terminal message with the
unconsumed stream, or the error the loop raises. -/
def awaitLoop (cookie : List Char) : List Json → List OutEvent →
    List OutEvent × Except Err (Json × List Json)
  | [], outs => (outs, .error .noMoreMessages)
  | m :: rest, outs =>
    match jget m (strL "cookie") with
    | .error e => (outs, .error e)
    | .ok cv =>
      if isStrEq cv cookie = false then awaitLoop cookie rest outs
      else
        match jget m (strL "type") with
        | .error e => (outs, .error e)
        | .ok tv =>
          if isStrEq tv (strL "message") then
            match jget m (strL "message") with
            | .error e => (outs, .error e)
            | .ok mv => awaitLoop cookie rest (outs ++ [.writeln mv])
          else if isStrEq tv (strL "progress") then awaitLoop cookie rest outs
          else if isStrEq tv (strL "error") || isStrEq tv (strL "reply") then
            (outs, .ok (m, rest))
          else (outs, .error .unknownMessageType)

/-- `CMakeServer._raise_if_error`: on an `error`-tagged result, write
`"CMake Server: %s" % result["errorMessage"]` to the error sink and raise
`ConanException("CMake Server error")`; otherwise do nothing. -/
def _raise_if_error (result : Json) : List OutEvent × Except Err Unit :=
  match jget result (strL "type") with
  | .error e => ([], .error e)
  | .ok tv =>
    if isStrEq tv (strL "error") then
      match jget result (strL "errorMessage") with
      | .error e => ([], .error e)
      | .ok ev => ([.errorLine ev], .error .serverRequestError)
    else ([], .ok ())

/-- Outcome of one `_issue_command_and_await_reply` call. -/
structure CallResult where
  command : JDict          -- the caller's dictionary after the in-place cookie insertion
  sent : List JDict        -- commands handed to `_issue_command`, in order
  outs : List OutEvent
  result : Except Err Json
  rest : List Json         -- messages not consumed from the incoming stream

/-- `CMakeServer._issue_command_and_await_reply`; `cookie` stands for the
fresh `str(uuid.uuid4())` value generated at the top of the call. -/
def _issue_command_and_await_reply (command : JDict) (cookie : List Char)
    (required : Bool) (incoming : List Json) : CallResult :=
  let cmd := dictSet command (strL "cookie") (.str cookie)
  let lr := awaitLoop cookie incoming []
  match lr.2 with
  | .error e => ⟨cmd, [cmd], lr.1, .error e, []⟩
  | .ok (t, rest) =>
    if required then
      let re := _raise_if_error t
      match re.2 with
      | .error e => ⟨cmd, [cmd], lr.1 ++ re.1, .error e, rest⟩
      | .ok _ => ⟨cmd, [cmd], lr.1 ++ re.1, .ok t, rest⟩
    else ⟨cmd, [cmd], lr.1, .ok t, rest⟩

/-- Outcome of `_configure`. -/
structure ConfigureResult where
  sent : List JDict
  outs : List OutEvent
  result : Except Err Unit

/-- `CMakeServer._configure`: build the `-D<name>=<value>` cache arguments
in the mapping's iteration order, issue `configure` as a required call, and
on its success issue the parameterless `compute` as a required call. -/
def _configure (defs : Option (List (List Char × List Char)))
    (cookie1 cookie2 : List Char) (incoming : List Json) : ConfigureResult :=
  let cache_arguments :=
    match defs with
    | none => ([] : List (List Char))
    | some l => l.map (fun (kv : List Char × List Char) => strL "-D" ++ kv.1 ++ strL "=" ++ kv.2)
  let r1 := _issue_command_and_await_reply
    [(strL "type", .str (strL "configure")),
     (strL "cacheArguments", .arr (cache_arguments.map .str))] cookie1 true incoming
  match r1.result with
  | .error e => ⟨r1.sent, r1.outs, .error e⟩
  | .ok _ =>
    let r2 := _issue_command_and_await_reply [(strL "type", .str (strL "compute"))]
      cookie2 true r1.rest
    match r2.result with
    | .error e => ⟨r1.sent ++ r2.sent, r1.outs ++ r2.outs, .error e⟩
    | .ok _ => ⟨r1.sent ++ r2.sent, r1.outs ++ r2.outs, .ok ()⟩

/-! ### The handshake negotiator (`__enter__` after the spawn) -/

/-- The version-selection loop of `__enter__`: fold over the entries of
`hello["supportedProtocolVersions"]` with both accumulators starting at 0;
a major-1 entry sets `major` to its (`== 1`) major and raises `minor` to its
minor when larger. -/
def selectLoop : List Json → Int → Int → Except Err (Int × Int)
  | [], major, minor => .ok (major, minor)
  | v :: rest, major, minor =>
    match jget v (strL "major") with
    | .error e => .error e
    | .ok mj =>
      if isNumEq mj 1 then
        match jget v (strL "minor") with
        | .error e => .error e
        | .ok mnv =>
          match mnv with
          | .num k => selectLoop rest 1 (if minor < k then k else minor)
          | _ => .error .typeError
      else selectLoop rest major minor

/-- Python `a == b` on lists of characters, prefix test. -/
def leadsWith : List Char → List Char → Bool
  | [], _ => true
  | _ :: _, [] => false
  | a :: as, b :: bs => (a == b) && leadsWith as bs

/-- Python `sub in s` for strings: contiguous substring containment. -/
def occursIn (sub : List Char) : List Char → Bool
  | [] => sub.isEmpty
  | c :: t => leadsWith sub (c :: t) || occursIn sub t

/-- Session parameters fixed before `__enter__` runs. -/
structure SessionCfg where
  source_folder : List Char
  build_folder : List Char
  generator : List Char
  toolset : Json     -- a string, or null for Python None
  osName : Json      -- the value of `self._os`

/-- Outcome of the handshake part of `__enter__`. -/
structure EnterResult where
  sent : List JDict
  outs : List OutEvent
  result : Except Err (Int × Int)   -- the negotiated (major, minor) on success

/-- `CMakeServer.__enter__` from the point the subprocess is spawned: read
the greeting, negotiate the protocol version, send `handshake` and
`setGlobalSettings` as required calls.  `incoming` is the stream of
messages `_get_next_object` would return; `cookie1`, `cookie2` stand for
the two generated UUID cookies. -/
def enterAfterSpawn (cfg : SessionCfg) (cookie1 cookie2 : List Char)
    (incoming : List Json) : EnterResult :=
  let outs0 : List OutEvent := [.info (strL "Establishing CMake server connection...")]
  match incoming with
  | [] => ⟨[], outs0, .error .noMoreMessages⟩
  | hello :: stream =>
    match jget hello (strL "type") with
    | .error e => ⟨[], outs0, .error e⟩
    | .ok tv =>
      if isStrEq tv (strL "hello") = false then ⟨[], outs0, .error .badHello⟩
      else
        match jget hello (strL "supportedProtocolVersions") with
        | .error e => ⟨[], outs0, .error e⟩
        | .ok svs =>
          match svs with
          | .arr entries =>
            match selectLoop entries 0 0 with
            | .error e => ⟨[], outs0, .error e⟩
            | .ok (major, minor) =>
              if major = 0 then ⟨[], outs0, .error .noCompatibleProtocol⟩
              else
                let handshake0 : JDict :=
                  [(strL "type", .str (strL "handshake")),
                   (strL "protocolVersion",
                     .obj [(strL "major", .num major), (strL "minor", .num minor)]),
                   (strL "sourceDirectory", .str cfg.source_folder),
                   (strL "buildDirectory", .str cfg.build_folder),
                   (strL "generator", .str cfg.generator),
                   (strL "toolset", cfg.toolset)]
                let handshake :=
                  if occursIn (strL "Visual Studio") cfg.generator then handshake0
                  else dictSet handshake0 (strL "platform") cfg.osName
                let r1 := _issue_command_and_await_reply handshake cookie1 true stream
                match r1.result with
                | .error e => ⟨r1.sent, outs0 ++ r1.outs, .error e⟩
                | .ok _ =>
                  let outs1 := outs0 ++ r1.outs ++
                    [.info (strL "CMake Server connection established (protocol " ++
                      intRepr major ++ strL "." ++ intRepr minor ++ strL ")")]
                  let r2 := _issue_command_and_await_reply
                    [(strL "type", .str (strL "setGlobalSettings")),
                     (strL "sourceDirectory", .str cfg.source_folder),
                     (strL "buildDirectory", .str cfg.build_folder),
                     (strL "currentGenerator", .str cfg.generator)] cookie2 true r1.rest
                  match r2.result with
                  | .error e => ⟨r1.sent ++ r2.sent, outs1 ++ r2.outs, .error e⟩
                  | .ok _ => ⟨r1.sent ++ r2.sent, outs1 ++ r2.outs, .ok (major, minor)⟩
          | _ => ⟨[], outs0, .error .typeError⟩

/-- Messages the loop consumes without terminating: a different cookie, or
the call's cookie with a `message` payload or a `progress` tag. -/
def nonTerminal (cookie : List Char) (m : Json) : Prop :=
  (∃ cv, jget m (strL "cookie") = .ok cv ∧ isStrEq cv cookie = false) ∨
  (jget m (strL "cookie") = .ok (.str cookie) ∧
    ((jget m (strL "type") = .ok (.str (strL "message")) ∧
      ∃ mv, jget m (strL "message") = .ok mv) ∨
     jget m (strL "type") = .ok (.str (strL "progress"))))

instance : RightCommutative verStep := by
  constructor
  intro acc p q
  unfold verStep
  by_cases hp : p.1 = 1 <;> by_cases hq : q.1 = 1 <;> simp [hp, hq, sup_right_comm]

/-! ## Properties -/

theorem digitChar_isDigit (d : Nat) (h : d < 10) : (Nat.digitChar d).isDigit = true := by
  interval_cases d <;> decide

theorem digitChar_toNat (d : Nat) (h : d < 10) : (Nat.digitChar d).toNat = 48 + d := by
  interval_cases d <;> decide

theorem digitChar_ne_zero (d : Nat) (h1 : 1 ≤ d) (h2 : d < 10) : Nat.digitChar d ≠ '0' := by
  interval_cases d <;> decide

theorem natDigits_ne_nil (n : Nat) : natDigits n ≠ [] := by
  rw [natDigits]
  split <;> simp

theorem natDigits_all_digits (n : Nat) : ∀ c ∈ natDigits n, c.isDigit = true := by
  induction n using Nat.strong_induction_on with
  | _ n ih =>
    rw [natDigits]
    split
    · intro c hc
      simp only [List.mem_singleton] at hc
      subst hc
      exact digitChar_isDigit n (by omega)
    · intro c hc
      rcases List.mem_append.mp hc with h | h
      · exact ih (n / 10) (Nat.div_lt_self (by omega) (by omega)) c h
      · simp only [List.mem_singleton] at h
        subst h
        exact digitChar_isDigit _ (Nat.mod_lt _ (by omega))

/-- For a positive natural the leading digit is nonzero. -/
theorem natDigits_head_ne_zero (n : Nat) (hn : 1 ≤ n) :
    ∀ c t, natDigits n = c :: t → c ≠ '0' := by
  induction n using Nat.strong_induction_on with
  | _ n ih =>
    rw [natDigits]
    split
    · intro c t h hc
      simp only [List.cons.injEq] at h
      exact digitChar_ne_zero n hn (by omega) (h.1 ▸ hc)
    · intro c t h
      rcases hd : natDigits (n / 10) with _ | ⟨c', t'⟩
      · exact absurd hd (natDigits_ne_nil _)
      · rw [hd] at h
        simp only [List.cons_append, List.cons.injEq] at h
        have := ih (n / 10) (Nat.div_lt_self (by omega) (by omega))
          (by omega : 1 ≤ n / 10) c' t' hd
        exact h.1 ▸ this

theorem spanDigits_append (l rest : List Char)
    (hl : ∀ c ∈ l, c.isDigit = true)
    (hrest : ∀ c t, rest = c :: t → c.isDigit = false) :
    spanDigits (l ++ rest) = (l, rest) := by
  induction l with
  | nil =>
    cases rest with
    | nil => rfl
    | cons c t =>
      have := hrest c t rfl
      simp [spanDigits, this]
  | cons c l' ih =>
    have hc : c.isDigit = true := hl c (by simp)
    simp only [List.cons_append, spanDigits, hc, if_true]
    rw [show l'.append rest = l' ++ rest from rfl, ih (fun x hx => hl x (by simp [hx]))]

theorem digits_foldl_natDigits (n : Nat) : ∀ a : Nat,
    (natDigits n).foldl (fun acc c => acc * 10 + (c.toNat - 48)) a =
      a * 10 ^ (natDigits n).length + n := by
  induction n using Nat.strong_induction_on with
  | _ n ih =>
    intro a
    rw [natDigits]
    split
    · simp only [List.foldl_cons, List.foldl_nil, List.length_singleton]
      rw [digitChar_toNat n (by omega)]
      omega
    · rw [List.foldl_append, List.length_append]
      rw [ih (n / 10) (Nat.div_lt_self (by omega) (by omega)) a]
      simp only [List.foldl_cons, List.foldl_nil, List.length_singleton]
      rw [digitChar_toNat (n % 10) (Nat.mod_lt _ (by omega))]
      rw [Nat.pow_succ, ← Nat.mul_assoc]
      generalize a * 10 ^ (natDigits (n / 10)).length = K
      omega

theorem digitsToNat_natDigits (n : Nat) : digitsToNat (natDigits n) = n := by
  unfold digitsToNat
  rw [digits_foldl_natDigits n 0]
  omega

theorem hexVal_digitChar (d : Nat) (h : d < 16) : hexVal (Nat.digitChar d) = some d := by
  interval_cases d <;> decide

theorem readHex4_hex4 (n : Nat) (h : n < 65536) :
    readHex4 (Nat.digitChar (n / 4096 % 16)) (Nat.digitChar (n / 256 % 16))
      (Nat.digitChar (n / 16 % 16)) (Nat.digitChar (n % 16)) = some n := by
  unfold readHex4
  rw [hexVal_digitChar _ (Nat.mod_lt _ (by omega)),
      hexVal_digitChar _ (Nat.mod_lt _ (by omega)),
      hexVal_digitChar _ (Nat.mod_lt _ (by omega)),
      hexVal_digitChar _ (Nat.mod_lt _ (by omega))]
  exact congrArg some (by omega)

theorem char_ofNat_toNat (c : Char) : Char.ofNat c.toNat = c := Char.ofNat_toNat c

/-- Validity of a character's code point, in arithmetic form. -/
theorem char_valid_nat (c : Char) :
    c.toNat < 0xD800 ∨ (0xE000 ≤ c.toNat ∧ c.toNat < 0x110000) := by
  have h := c.valid
  unfold UInt32.isValidChar Nat.isValidChar at h
  have he : c.toNat = c.val.toNat := rfl
  rw [he]
  rcases h with h | h
  · exact Or.inl h
  · exact Or.inr (by omega)

theorem psb_quote (r : List Char) : parseStringBody ('"' :: r) = .ok ([], r) := by
  simp [parseStringBody]

theorem psb_backslash (r : List Char) : parseStringBody ('\\' :: r) = parseEscape r := by
  simp [parseStringBody]

theorem psb_raw (c : Char) (r : List Char) (h1 : c ≠ '"') (h2 : c ≠ '\\')
    (h3 : ¬ c.toNat < 0x20) :
    parseStringBody (c :: r) = pushChar c (parseStringBody r) := by
  simp [parseStringBody, h1, h2, h3]

theorem pe_u (r : List Char) : parseEscape ('u' :: r) = parseUEscape r := by
  simp [parseEscape]

theorem pue_scalar (a b c d : Char) (r : List Char) (n : Nat)
    (h : readHex4 a b c d = some n)
    (hhi : ¬ (0xD800 ≤ n ∧ n < 0xDC00)) (hlo : ¬ (0xDC00 ≤ n ∧ n < 0xE000)) :
    parseUEscape (a :: b :: c :: d :: r) = pushChar (Char.ofNat n) (parseStringBody r) := by
  simp [parseUEscape, h, hhi, hlo]

theorem pue_hi (a b c d : Char) (r : List Char) (n : Nat)
    (h : readHex4 a b c d = some n) (hhi : 0xD800 ≤ n ∧ n < 0xDC00) :
    parseUEscape (a :: b :: c :: d :: r) = parseLowSurrogate n r := by
  simp [parseUEscape, h, hhi]

theorem pls_step (hi : Nat) (a b c d : Char) (r : List Char) (lo : Nat)
    (h : readHex4 a b c d = some lo) (hlo : 0xDC00 ≤ lo ∧ lo < 0xE000) :
    parseLowSurrogate hi ('\\' :: 'u' :: a :: b :: c :: d :: r) =
      pushChar (Char.ofNat (0x10000 + (hi - 0xD800) * 0x400 + (lo - 0xDC00)))
        (parseStringBody r) := by
  simp [parseLowSurrogate, h, hlo]

/-- Decoding one emitted escape recovers the character: the string-body
parser consumes `escChar c` and pushes exactly `c`. -/
theorem parseStringBody_escChar (c : Char) (tail : List Char) :
    parseStringBody (escChar c ++ tail) = pushChar c (parseStringBody tail) := by
  by_cases h1 : c = '"'
  · subst h1
    rw [show escChar '"' ++ tail = '\\' :: '"' :: tail from rfl, psb_backslash]
    simp [parseEscape]
  by_cases h2 : c = '\\'
  · subst h2
    rw [show escChar '\\' ++ tail = '\\' :: '\\' :: tail from rfl, psb_backslash]
    simp [parseEscape]
  by_cases h3 : c = '\n'
  · subst h3
    rw [show escChar '\n' ++ tail = '\\' :: 'n' :: tail from rfl, psb_backslash]
    simp [parseEscape]
  by_cases h4 : c = '\r'
  · subst h4
    rw [show escChar '\r' ++ tail = '\\' :: 'r' :: tail from rfl, psb_backslash]
    simp [parseEscape]
  by_cases h5 : c = '\t'
  · subst h5
    rw [show escChar '\t' ++ tail = '\\' :: 't' :: tail from rfl, psb_backslash]
    simp [parseEscape]
  by_cases h6 : c = '\x08'
  · subst h6
    rw [show escChar '\x08' ++ tail = '\\' :: 'b' :: tail from rfl, psb_backslash]
    simp [parseEscape]
  by_cases h7 : c = '\x0c'
  · subst h7
    rw [show escChar '\x0c' ++ tail = '\\' :: 'f' :: tail from rfl, psb_backslash]
    simp [parseEscape]
  have hvalid := char_valid_nat c
  by_cases h8 : c.toNat < 0x20
  · have hstep : escChar c ++ tail =
        '\\' :: 'u' :: Nat.digitChar (c.toNat / 4096 % 16) :: Nat.digitChar (c.toNat / 256 % 16)
          :: Nat.digitChar (c.toNat / 16 % 16) :: Nat.digitChar (c.toNat % 16) :: tail := by
      simp [escChar, h1, h2, h3, h4, h5, h6, h7, h8, hex4]
    rw [hstep, psb_backslash, pe_u,
      pue_scalar _ _ _ _ _ c.toNat (readHex4_hex4 c.toNat (by omega))
        (by omega) (by omega), char_ofNat_toNat]
  by_cases h9 : c.toNat < 0x7f
  · have hstep : escChar c ++ tail = c :: tail := by
      simp [escChar, h1, h2, h3, h4, h5, h6, h7, h8, h9]
    rw [hstep, psb_raw c tail h1 h2 h8]
  by_cases h10 : c.toNat < 0x10000
  · have hsur : ¬ (0xD800 ≤ c.toNat ∧ c.toNat < 0xDC00) := by omega
    have hlow : ¬ (0xDC00 ≤ c.toNat ∧ c.toNat < 0xE000) := by omega
    have hstep : escChar c ++ tail =
        '\\' :: 'u' :: Nat.digitChar (c.toNat / 4096 % 16) :: Nat.digitChar (c.toNat / 256 % 16)
          :: Nat.digitChar (c.toNat / 16 % 16) :: Nat.digitChar (c.toNat % 16) :: tail := by
      simp [escChar, h1, h2, h3, h4, h5, h6, h7, h8, h9, h10, hex4]
    rw [hstep, psb_backslash, pe_u,
      pue_scalar _ _ _ _ _ c.toNat (readHex4_hex4 c.toNat (by omega)) hsur hlow,
      char_ofNat_toNat]
  · have hmax : c.toNat < 0x110000 := by omega
    have hhi : 0xD800 ≤ 0xD800 + (c.toNat - 0x10000) / 0x400 ∧
        0xD800 + (c.toNat - 0x10000) / 0x400 < 0xDC00 := by omega
    have hlo : 0xDC00 ≤ 0xDC00 + (c.toNat - 0x10000) % 0x400 ∧
        0xDC00 + (c.toNat - 0x10000) % 0x400 < 0xE000 := by omega
    have hstep : escChar c ++ tail =
        '\\' :: 'u' ::
          Nat.digitChar ((0xD800 + (c.toNat - 0x10000) / 0x400) / 4096 % 16) ::
          Nat.digitChar ((0xD800 + (c.toNat - 0x10000) / 0x400) / 256 % 16) ::
          Nat.digitChar ((0xD800 + (c.toNat - 0x10000) / 0x400) / 16 % 16) ::
          Nat.digitChar ((0xD800 + (c.toNat - 0x10000) / 0x400) % 16) ::
          '\\' :: 'u' ::
          Nat.digitChar ((0xDC00 + (c.toNat - 0x10000) % 0x400) / 4096 % 16) ::
          Nat.digitChar ((0xDC00 + (c.toNat - 0x10000) % 0x400) / 256 % 16) ::
          Nat.digitChar ((0xDC00 + (c.toNat - 0x10000) % 0x400) / 16 % 16) ::
          Nat.digitChar ((0xDC00 + (c.toNat - 0x10000) % 0x400) % 16) :: tail := by
      simp [escChar, h1, h2, h3, h4, h5, h6, h7, h8, h9, h10, hex4]
    rw [hstep, psb_backslash, pe_u,
      pue_hi _ _ _ _ _ _ (readHex4_hex4 _ (by omega)) hhi,
      pls_step _ _ _ _ _ _ _ (readHex4_hex4 _ (by omega)) hlo]
    have hcomb : 0x10000 + (0xD800 + (c.toNat - 0x10000) / 0x400 - 0xD800) * 0x400 +
        (0xDC00 + (c.toNat - 0x10000) % 0x400 - 0xDC00) = c.toNat := by omega
    rw [hcomb, char_ofNat_toNat]

/-- Round trip for string bodies: parsing the escaped body followed by the
closing quote yields the original string. -/
theorem parseStringBody_escStr (s : List Char) : ∀ rest,
    parseStringBody (escStr s ++ '"' :: rest) = .ok (s, rest) := by
  induction s with
  | nil => intro rest; simp [escStr, parseStringBody]
  | cons c s' ih =>
    intro rest
    rw [show escStr (c :: s') = escChar c ++ escStr s' from rfl, List.append_assoc,
      parseStringBody_escChar, ih]
    rfl

/-! ### Facts about leading characters of serialized values -/

theorem isWs_true_iff (c : Char) :
    isWs c = true ↔ c = ' ' ∨ c = '\t' ∨ c = '\n' ∨ c = '\r' := by
  simp only [isWs, Bool.or_eq_true, beq_iff_eq]
  tauto

theorem digit_isWs_false (c : Char) (h : c.isDigit = true) : isWs c = false := by
  cases hw : isWs c
  · rfl
  · rcases (isWs_true_iff c).mp hw with he | he | he | he <;>
      (rw [he] at h; exact absurd h (by decide))

theorem digit_ne (c : Char) (h : c.isDigit = true) (d : Char) (hd : d.isDigit = false) :
    c ≠ d := by
  intro he
  rw [he, hd] at h
  exact absurd h (by decide)

theorem goodNext_head_not_digit (rest : List Char) (h : goodNextB rest = true) :
    ∀ c t, rest = c :: t → c.isDigit = false := by
  intro c t he
  subst he
  simp only [goodNextB, Bool.and_eq_true, Bool.not_eq_true'] at h
  exact h.1.1.1

theorem goodNext_no_float (rest : List Char) (h : goodNextB rest = true) :
    floatFollows rest = false := by
  cases rest with
  | nil => rfl
  | cons c t =>
    simp only [goodNextB, Bool.and_eq_true, Bool.not_eq_true'] at h
    simp [floatFollows, h.1.1.2, h.1.2, h.2]

theorem skipWs_not (c : Char) (r : List Char) (h : isWs c = false) :
    skipWs (c :: r) = c :: r := by
  simp [skipWs, h]

theorem skipWs_ws (c : Char) (r : List Char) (h : isWs c = true) :
    skipWs (c :: r) = skipWs r := by
  simp [skipWs, h]

/-- Integer literal parsing inverts `natDigits`. -/
theorem parseUIntPy_natDigits (n : Nat) (rest : List Char)
    (hrest : ∀ c t, rest = c :: t → c.isDigit = false) :
    parseUIntPy (natDigits n ++ rest) = .ok (n, rest) := by
  rcases hn : natDigits n with _ | ⟨c, t⟩
  · exact absurd hn (natDigits_ne_nil n)
  rcases Nat.eq_zero_or_pos n with h0 | hpos
  · subst h0
    have : natDigits 0 = ['0'] := by rw [natDigits]; rfl
    rw [this] at hn
    simp only [List.cons.injEq] at hn
    rw [← hn.1, ← hn.2]
    simp [parseUIntPy]
  · have hcd : c.isDigit = true := natDigits_all_digits n c (hn ▸ List.mem_cons_self c t)
    have hc0 : c ≠ '0' := natDigits_head_ne_zero n hpos c t hn
    have htd : ∀ x ∈ t, x.isDigit = true := fun x hx =>
      natDigits_all_digits n x (hn ▸ List.mem_cons_of_mem c hx)
    simp only [List.cons_append, parseUIntPy, hc0, if_false, hcd, if_true]
    rw [spanDigits_append t rest htd hrest]
    have : digitsToNat (c :: t) = n := by rw [← hn]; exact digitsToNat_natDigits n
    simp [this]

/-- Number scanning inverts Python `repr` of an integer, provided the
following character cannot extend the literal. -/
theorem parseIntPy_intRepr (n : Int) (rest : List Char) (hrest : goodNextB rest = true) :
    parseIntPy (intRepr n ++ rest) = .ok (n, rest) := by
  have hnd := goodNext_head_not_digit rest hrest
  have hnf := goodNext_no_float rest hrest
  cases n with
  | ofNat m =>
    rcases hn : natDigits m with _ | ⟨c, t⟩
    · exact absurd hn (natDigits_ne_nil m)
    have hcd : c.isDigit = true := natDigits_all_digits m c (hn ▸ List.mem_cons_self c t)
    have hcm : c ≠ '-' := digit_ne c hcd '-' (by decide)
    have hstep : intRepr (Int.ofNat m) ++ rest = c :: (t ++ rest) := by
      simp [intRepr, hn]
    rw [hstep]
    simp only [parseIntPy, hcm, if_false]
    have : parseUIntPy (c :: (t ++ rest)) = .ok (m, rest) := by
      have := parseUIntPy_natDigits m rest hnd
      rw [hn] at this
      simpa using this
    rw [this]
    simp [hnf]
  | negSucc m =>
    have hstep : intRepr (Int.negSucc m) ++ rest = '-' :: (natDigits (m + 1) ++ rest) := by
      simp [intRepr]
    rw [hstep]
    simp only [parseIntPy, if_true]
    rw [parseUIntPy_natDigits (m + 1) rest hnd]
    simp only [hnf, Bool.false_eq_true, if_false, Except.ok.injEq, Prod.mk.injEq, and_true]
    rw [Int.negSucc_eq]
    push_cast
    ring

/-! ### Python dictionary reconstruction -/

theorem dictSet_append (d : JDict) (k : List Char) (v : Json) (h : hasKey d k = false) :
    dictSet d k v = d ++ [(k, v)] := by
  induction d with
  | nil => rfl
  | cons kv rest ih =>
    obtain ⟨k', v'⟩ := kv
    simp only [hasKey, List.any_cons, Bool.or_eq_false_iff, beq_eq_false_iff_ne, ne_eq] at h
    simp only [dictSet, h.1, if_false, List.cons_append, List.cons.injEq, true_and]
    exact ih (by simp [hasKey, h.2])

theorem hasKey_append (d1 d2 : JDict) (k : List Char) :
    hasKey (d1 ++ d2) k = (hasKey d1 k || hasKey d2 k) := by
  simp [hasKey, List.any_append]

theorem pyDict_go (ms : JDict) : ∀ d : JDict, nodupKeys ms = true →
    (∀ kv ∈ ms, hasKey d kv.1 = false) →
    ms.foldl (fun d kv => dictSet d kv.1 kv.2) d = d ++ ms := by
  induction ms with
  | nil => intro d _ _; simp
  | cons kv rest ih =>
    intro d hnd habs
    obtain ⟨k, v⟩ := kv
    simp only [nodupKeys, Bool.and_eq_true, List.all_eq_true] at hnd
    simp only [List.foldl_cons]
    rw [dictSet_append d k v (habs (k, v) (List.mem_cons_self _ _))]
    rw [ih (d ++ [(k, v)]) hnd.2 ?_]
    · simp
    · intro kv2 h2
      rw [hasKey_append]
      have h1 : hasKey d kv2.1 = false := habs kv2 (List.mem_cons_of_mem _ h2)
      have h2k : (kv2.1 == k) = false := by
        have := hnd.1 kv2 h2
        simpa using this
      have : hasKey [(k, v)] kv2.1 = false := by
        simp only [hasKey, List.any_cons, List.any_nil, Bool.or_false]
        rw [beq_eq_false_iff_ne] at h2k ⊢
        exact fun he => h2k he.symm
      rw [h1, this]
      rfl

/-- Reconstructing a dictionary from pairs with pairwise distinct keys is
the identity: `dict(pairs) == pairs` up to the association-list view. -/
theorem pyDict_eq_self (ms : JDict) (h : nodupKeys ms = true) : pyDict ms = ms := by
  unfold pyDict
  rw [pyDict_go ms [] h (by intro kv _; rfl)]
  rfl

theorem intRepr_head (n : Int) : ∃ c t, intRepr n = c :: t ∧
    isNumStart c = true ∧ c ≠ '"' ∧ c ≠ '[' ∧ c ≠ lbrace ∧
    isWs c = false ∧ c ≠ ']' ∧ c ≠ rbrace ∧ c ≠ ',' := by
  cases n with
  | ofNat m =>
    rcases hn : natDigits m with _ | ⟨c, t⟩
    · exact absurd hn (natDigits_ne_nil m)
    have hcd : c.isDigit = true := natDigits_all_digits m c (hn ▸ List.mem_cons_self c t)
    exact ⟨c, t, by simp [intRepr, hn], by simp [isNumStart, hcd], digit_ne c hcd '"' (by decide),
      digit_ne c hcd '[' (by decide), digit_ne c hcd lbrace (by decide),
      digit_isWs_false c hcd, digit_ne c hcd ']' (by decide),
      digit_ne c hcd rbrace (by decide), digit_ne c hcd ',' (by decide)⟩
  | negSucc m =>
    exact ⟨'-', natDigits (m + 1), rfl, by decide, by decide, by decide, by decide,
      by decide, by decide, by decide, by decide⟩

/-- The first character of any serialized value is never whitespace, a
closing bracket, a closing brace, or a comma. -/
theorem dumps_headOk (j : Json) : ∃ c t, json_dumps j = c :: t ∧
    isWs c = false ∧ c ≠ ']' ∧ c ≠ rbrace ∧ c ≠ ',' := by
  cases j with
  | null => exact ⟨'n', _, rfl, by decide, by decide, by decide, by decide⟩
  | bool b => cases b with
    | true => exact ⟨'t', _, rfl, by decide, by decide, by decide, by decide⟩
    | false => exact ⟨'f', _, rfl, by decide, by decide, by decide, by decide⟩
  | num n =>
    obtain ⟨c, t, hct, _, _, _, _, hws, hbr, hrb, hcm⟩ := intRepr_head n
    exact ⟨c, t, by simp [json_dumps, hct], hws, hbr, hrb, hcm⟩
  | str s =>
    exact ⟨'"', escStr s ++ ['"'], by simp [json_dumps], by decide, by decide, by decide,
      by decide⟩
  | arr xs =>
    exact ⟨'[', dumpsElems xs ++ [']'], by simp [json_dumps], by decide, by decide, by decide,
      by decide⟩
  | obj ms =>
    exact ⟨lbrace, dumpsMembers ms ++ [rbrace], by simp [json_dumps], by decide, by decide,
      by decide, by decide⟩

theorem dumps_ne_nil (j : Json) : json_dumps j ≠ [] := by
  obtain ⟨c, t, h, -⟩ := dumps_headOk j
  simp [h]

theorem dumps_length_pos (j : Json) : 1 ≤ (json_dumps j).length := by
  obtain ⟨c, t, h, -⟩ := dumps_headOk j
  simp [h]

/-- A nonempty element list serializes with the same head character as its
first element. -/
theorem elems_head (x : Json) (t : List Json) : ∃ c t', dumpsElems (x :: t) = c :: t' ∧
    isWs c = false ∧ c ≠ ']' ∧ c ≠ rbrace := by
  obtain ⟨c, t0, hx, hws, hbr, hrb, _⟩ := dumps_headOk x
  cases t with
  | nil => exact ⟨c, t0, by simp [dumpsElems, hx], hws, hbr, hrb⟩
  | cons y t2 => exact ⟨c, t0 ++ ',' :: ' ' :: dumpsElems (y :: t2),
      by simp [dumpsElems, hx], hws, hbr, hrb⟩

/-- A nonempty member list serializes starting with the key's opening
quote. -/
theorem members_head (k : List Char) (v : Json) (t : JDict) :
    ∃ t', dumpsMembers ((k, v) :: t) = '"' :: t' := by
  cases t with
  | nil => exact ⟨escStr k ++ '"' :: ':' :: ' ' :: json_dumps v, by simp [dumpsMembers]⟩
  | cons m t2 =>
    exact ⟨escStr k ++ '"' :: ':' :: ' ' :: (json_dumps v ++ ',' :: ' ' :: dumpsMembers (m :: t2)),
      by simp [dumpsMembers]⟩

theorem isWs_rbrace : isWs rbrace = false := by decide

theorem quote_ne_rbrace : ('"' : Char) ≠ rbrace := by decide

theorem comma_ne_rbrace : (',' : Char) ≠ rbrace := by decide

theorem lbrace_ne_quote : lbrace ≠ '"' := by decide

theorem lbrace_ne_lbracket : lbrace ≠ '[' := by decide

/-- Joint round-trip statement for values, array elements, and object
members, by induction on the scanner's fuel: parsing a serialized document
consumes exactly the serialization and returns the document. -/
theorem parse_dumps_fuel : ∀ fuel : Nat,
    (∀ j rest, wfB j = true → goodNextB rest = true → (json_dumps j).length < fuel →
      parseValue fuel (json_dumps j ++ rest) = .ok (j, rest)) ∧
    (∀ xs rest, wfArr xs = true → xs ≠ [] → (dumpsElems xs).length + 1 < fuel →
      parseElems fuel (dumpsElems xs ++ ']' :: rest) = .ok (xs, rest)) ∧
    (∀ ms rest, wfMems ms = true → ms ≠ [] → (dumpsMembers ms).length + 1 < fuel →
      parseMembers fuel (dumpsMembers ms ++ rbrace :: rest) = .ok (ms, rest)) := by
  intro fuel
  induction fuel with
  | zero =>
    refine ⟨?_, ?_, ?_⟩ <;> · intro a b h1 h2 h3; omega
  | succ f ih =>
    obtain ⟨ihP, ihQ, ihR⟩ := ih
    refine ⟨?_, ?_, ?_⟩
    · -- values
      intro j rest hwf hgn hlen
      cases j with
      | null =>
        rw [show json_dumps .null ++ rest = 'n' :: 'u' :: 'l' :: 'l' :: rest from rfl]
        simp [parseValue, lbrace, isNumStart]
      | bool b =>
        cases b with
        | false =>
          rw [show json_dumps (.bool false) ++ rest = 'f' :: 'a' :: 'l' :: 's' :: 'e' :: rest
            from rfl]
          simp [parseValue, lbrace, isNumStart]
        | true =>
          rw [show json_dumps (.bool true) ++ rest = 't' :: 'r' :: 'u' :: 'e' :: rest from
            rfl]
          simp [parseValue, lbrace, isNumStart]
      | num n =>
        obtain ⟨c, t, hct, hdisp, hq, hlsq, hlbr, hws, hrsq, hrbr, hcm⟩ := intRepr_head n
        rw [show json_dumps (.num n) ++ rest = c :: (t ++ rest) from by
          simp [json_dumps, hct]]
        have hint : parseIntPy (c :: (t ++ rest)) = .ok (n, rest) := by
          have h0 := parseIntPy_intRepr n rest hgn
          rw [hct] at h0
          simpa using h0
        simp [parseValue, hq, hlsq, hlbr, hdisp, hint]
      | str s =>
        rw [show json_dumps (.str s) ++ rest = '"' :: (escStr s ++ '"' :: rest) from by
          simp [json_dumps]]
        simp [parseValue, parseStringBody_escStr]
      | arr xs =>
        cases xs with
        | nil =>
          rw [show json_dumps (.arr []) ++ rest = '[' :: ']' :: rest from by
            simp [json_dumps, dumpsElems]]
          simp [parseValue, lbrace, skipWs, isWs]
        | cons x t =>
          have hwfA : wfArr (x :: t) = true := by simpa [wfB] using hwf
          obtain ⟨c2, t2, hel, hws2, hbr2, hrb2⟩ := elems_head x t
          have hQ : parseElems f (dumpsElems (x :: t) ++ ']' :: rest) = .ok (x :: t, rest) := by
            apply ihQ _ _ hwfA (by simp)
            have h2 : (json_dumps (.arr (x :: t))).length =
                (dumpsElems (x :: t)).length + 2 := by simp [json_dumps]
            omega
          rw [show json_dumps (.arr (x :: t)) ++ rest =
            '[' :: (dumpsElems (x :: t) ++ ']' :: rest) from by simp [json_dumps]]
          have hsplit : dumpsElems (x :: t) ++ ']' :: rest = c2 :: (t2 ++ ']' :: rest) := by
            rw [hel, List.cons_append]
          rw [hsplit] at hQ
          have hskip2 : skipWs (c2 :: (t2 ++ ']' :: rest)) = c2 :: (t2 ++ ']' :: rest) :=
            skipWs_not _ _ hws2
          rw [hsplit]
          simp [parseValue, lbrace, hskip2, hbr2, hQ]
      | obj ms =>
        cases ms with
        | nil =>
          rw [show json_dumps (.obj []) ++ rest = lbrace :: rbrace :: rest from by
            simp [json_dumps, dumpsMembers]]
          simp [parseValue, lbrace, rbrace, skipWs, isWs]
        | cons m t =>
          obtain ⟨k, v⟩ := m
          have hsp : nodupKeys ((k, v) :: t) = true ∧ wfMems ((k, v) :: t) = true := by
            simpa [wfB, Bool.and_eq_true] using hwf
          obtain ⟨t2, hmh⟩ := members_head k v t
          have hR : parseMembers f (dumpsMembers ((k, v) :: t) ++ rbrace :: rest) =
              .ok ((k, v) :: t, rest) := by
            apply ihR _ _ hsp.2 (by simp)
            have h2 : (json_dumps (.obj ((k, v) :: t))).length =
                (dumpsMembers ((k, v) :: t)).length + 2 := by simp [json_dumps]
            omega
          rw [show json_dumps (.obj ((k, v) :: t)) ++ rest =
            lbrace :: (dumpsMembers ((k, v) :: t) ++ rbrace :: rest) from by
            simp [json_dumps]]
          have hsplit : dumpsMembers ((k, v) :: t) ++ rbrace :: rest =
              '"' :: (t2 ++ rbrace :: rest) := by
            rw [hmh, List.cons_append]
          rw [hsplit] at hR
          have hskip2 : skipWs ('"' :: (t2 ++ rbrace :: rest)) =
              '"' :: (t2 ++ rbrace :: rest) := skipWs_not _ _ (by decide)
          rw [hsplit]
          simp [parseValue, lbrace_ne_quote, lbrace_ne_lbracket, hskip2, quote_ne_rbrace,
            hR, pyDict_eq_self _ hsp.1]
    · -- array elements
      intro xs rest hwf hne hlen
      cases xs with
      | nil => exact absurd rfl hne
      | cons x t =>
        have hwx : wfB x = true ∧ wfArr t = true := by
          simpa [wfArr, Bool.and_eq_true] using hwf
        cases t with
        | nil =>
          rw [show dumpsElems [x] ++ ']' :: rest = json_dumps x ++ ']' :: rest from by
            simp [dumpsElems]]
          have hP : parseValue f (json_dumps x ++ ']' :: rest) = .ok (x, ']' :: rest) := by
            apply ihP x (']' :: rest) hwx.1 rfl
            simp only [dumpsElems] at hlen
            omega
          simp [parseElems, hP, skipWs, isWs]
        | cons y t2 =>
          have hlen2 : (dumpsElems (x :: y :: t2)).length =
              (json_dumps x).length + 2 + (dumpsElems (y :: t2)).length := by
            simp [dumpsElems]
            omega
          have hxpos := dumps_length_pos x
          rw [show dumpsElems (x :: y :: t2) ++ ']' :: rest =
            json_dumps x ++ (',' :: ' ' :: (dumpsElems (y :: t2) ++ ']' :: rest)) from by
            simp [dumpsElems]]
          have hP : parseValue f
              (json_dumps x ++ (',' :: ' ' :: (dumpsElems (y :: t2) ++ ']' :: rest))) =
              .ok (x, ',' :: ' ' :: (dumpsElems (y :: t2) ++ ']' :: rest)) := by
            apply ihP x (',' :: ' ' :: (dumpsElems (y :: t2) ++ ']' :: rest)) hwx.1 rfl
            omega
          obtain ⟨c2, t3, heh, hws2, _, _⟩ := elems_head y t2
          have hQ2 : parseElems f (dumpsElems (y :: t2) ++ ']' :: rest) =
              .ok (y :: t2, rest) := by
            apply ihQ _ _ hwx.2 (by simp)
            omega
          have hskip : skipWs (dumpsElems (y :: t2) ++ ']' :: rest) =
              dumpsElems (y :: t2) ++ ']' :: rest := by
            rw [heh, List.cons_append]
            exact skipWs_not _ _ hws2
          simp [parseElems, hP, skipWs, isWs, hskip, hQ2]
    · -- object members
      intro ms rest hwf hne hlen
      cases ms with
      | nil => exact absurd rfl hne
      | cons m t =>
        obtain ⟨k, v⟩ := m
        have hwv : wfB v = true ∧ wfMems t = true := by
          simpa [wfMems, Bool.and_eq_true] using hwf
        cases t with
        | nil =>
          have hlen2 : (dumpsMembers [(k, v)]).length =
              (escStr k).length + 4 + (json_dumps v).length := by
            simp [dumpsMembers]
            omega
          rw [show dumpsMembers [(k, v)] ++ rbrace :: rest =
            '"' :: (escStr k ++ '"' :: (':' :: ' ' :: (json_dumps v ++ rbrace :: rest)))
            from by simp [dumpsMembers]]
          have hP : parseValue f (json_dumps v ++ rbrace :: rest) =
              .ok (v, rbrace :: rest) := by
            apply ihP v (rbrace :: rest) hwv.1 rfl
            omega
          obtain ⟨cv, tv, hcv, hwsv, _, _, _⟩ := dumps_headOk v
          have hskipv : skipWs (json_dumps v ++ rbrace :: rest) =
              json_dumps v ++ rbrace :: rest := by
            rw [hcv, List.cons_append]
            exact skipWs_not _ _ hwsv
          have hskipr : skipWs (rbrace :: rest) = rbrace :: rest :=
            skipWs_not _ _ isWs_rbrace
          simp [parseMembers, parseStringBody_escStr, skipWs_not, skipWs_ws, isWs,
            isWs_rbrace, hskipv, hP, hskipr]
        | cons m2 t2 =>
          obtain ⟨k2, v2⟩ := m2
          have hvpos := dumps_length_pos v
          have hlen2 : (dumpsMembers ((k, v) :: (k2, v2) :: t2)).length =
              (escStr k).length + 4 + (json_dumps v).length + 2 +
                (dumpsMembers ((k2, v2) :: t2)).length := by
            simp [dumpsMembers]
            omega
          rw [show dumpsMembers ((k, v) :: (k2, v2) :: t2) ++ rbrace :: rest =
            '"' :: (escStr k ++ '"' :: (':' :: ' ' :: (json_dumps v ++
              (',' :: ' ' :: (dumpsMembers ((k2, v2) :: t2) ++ rbrace :: rest)))))
            from by simp [dumpsMembers]]
          have hP : parseValue f (json_dumps v ++
              (',' :: ' ' :: (dumpsMembers ((k2, v2) :: t2) ++ rbrace :: rest))) =
              .ok (v, ',' :: ' ' :: (dumpsMembers ((k2, v2) :: t2) ++ rbrace :: rest)) := by
            apply ihP v (',' :: ' ' :: (dumpsMembers ((k2, v2) :: t2) ++ rbrace :: rest))
              hwv.1 rfl
            omega
          obtain ⟨t3, hmh⟩ := members_head k2 v2 t2
          have hR2 : parseMembers f (dumpsMembers ((k2, v2) :: t2) ++ rbrace :: rest) =
              .ok ((k2, v2) :: t2, rest) := by
            apply ihR _ _ hwv.2 (by simp)
            omega
          have hskip : skipWs (dumpsMembers ((k2, v2) :: t2) ++ rbrace :: rest) =
              dumpsMembers ((k2, v2) :: t2) ++ rbrace :: rest := by
            rw [hmh, List.cons_append]
            exact skipWs_not _ _ (by decide)
          obtain ⟨cv, tv, hcv, hwsv, _, _, _⟩ := dumps_headOk v
          have hskipv : skipWs (json_dumps v ++
              (',' :: ' ' :: (dumpsMembers ((k2, v2) :: t2) ++ rbrace :: rest))) =
              json_dumps v ++
                (',' :: ' ' :: (dumpsMembers ((k2, v2) :: t2) ++ rbrace :: rest)) := by
            rw [hcv, List.cons_append]
            exact skipWs_not _ _ hwsv
          simp [parseMembers, parseStringBody_escStr, skipWs_not, skipWs_ws, isWs,
            isWs_rbrace, hskipv, hP, comma_ne_rbrace, hskip, hR2]

/-- Serialize-then-parse is the identity on well-formed documents, also with
a trailing newline as `_get_next_object` accumulates it. -/
theorem json_loads_dumps_newline (j : Json) (hwf : wfB j = true) :
    json_loads (json_dumps j ++ ['\n']) = .ok j := by
  obtain ⟨c, t, hct, hws, _, _, _⟩ := dumps_headOk j
  have hskip : skipWs (json_dumps j ++ ['\n']) = json_dumps j ++ ['\n'] := by
    rw [hct, List.cons_append]
    exact skipWs_not _ _ hws
  unfold json_loads
  rw [hskip]
  have hP := (parse_dumps_fuel ((json_dumps j ++ ['\n']).length + 1)).1 j ['\n'] hwf rfl
    (by simp only [List.length_append, List.length_singleton]; omega)
  simp only [hP]
  simp [skipWs, isWs]

/-! ### Structural induction over documents -/

/-- Induction principle for `Json` exposing the membership hypotheses of the
nested lists, derived by strong induction on `sizeOf`. -/
theorem Json.indOn (P : Json → Prop)
    (hnull : P .null) (hbool : ∀ b, P (.bool b)) (hnum : ∀ n, P (.num n))
    (hstr : ∀ s, P (.str s))
    (harr : ∀ xs, (∀ x ∈ xs, P x) → P (.arr xs))
    (hobj : ∀ ms, (∀ kv ∈ ms, P kv.2) → P (.obj ms)) : ∀ j, P j := by
  have key : ∀ n j, sizeOf j ≤ n → P j := by
    intro n
    induction n with
    | zero =>
      intro j hj
      cases j <;> simp at hj
    | succ n ih =>
      intro j hj
      cases j with
      | null => exact hnull
      | bool b => exact hbool b
      | num m => exact hnum m
      | str s => exact hstr s
      | arr xs =>
        apply harr
        intro x hx
        apply ih
        have h1 : sizeOf x < sizeOf xs := List.sizeOf_lt_of_mem hx
        have h2 : sizeOf (Json.arr xs) = 1 + sizeOf xs := by simp
        omega
      | obj ms =>
        apply hobj
        intro kv hkv
        apply ih
        have h1 : sizeOf kv < sizeOf ms := List.sizeOf_lt_of_mem hkv
        have h2 : sizeOf (Json.obj ms) = 1 + sizeOf ms := by simp
        have h3 : sizeOf kv.2 < sizeOf kv := by
          obtain ⟨a, b⟩ := kv
          simp
        omega
  exact fun j => key (sizeOf j) j le_rfl

/-! ### Serialized documents contain no newline, so a command occupies
exactly one line of the wire. -/

theorem digitChar_lt16_ne_newline (d : Nat) (h : d < 16) : Nat.digitChar d ≠ '\n' := by
  interval_cases d <;> decide

theorem natDigits_no_newline (n : Nat) : '\n' ∉ natDigits n := by
  intro hm
  have := natDigits_all_digits n '\n' hm
  exact absurd this (by decide)

theorem hex4_no_newline (n : Nat) : '\n' ∉ hex4 n := by
  intro hm
  simp only [hex4, List.mem_cons, List.mem_singleton, List.not_mem_nil, or_false] at hm
  rcases hm with h | h | h | h <;>
    exact digitChar_lt16_ne_newline _ (Nat.mod_lt _ (by omega)) h.symm

theorem escChar_no_newline (c : Char) : '\n' ∉ escChar c := by
  by_cases h1 : c = '"'
  · subst h1; decide
  by_cases h2 : c = '\\'
  · subst h2; decide
  by_cases h3 : c = '\n'
  · subst h3; decide
  by_cases h4 : c = '\r'
  · subst h4; decide
  by_cases h5 : c = '\t'
  · subst h5; decide
  by_cases h6 : c = '\x08'
  · subst h6; decide
  by_cases h7 : c = '\x0c'
  · subst h7; decide
  by_cases h8 : c.toNat < 0x20
  · rw [show escChar c = '\\' :: 'u' :: hex4 c.toNat from by
      simp [escChar, h1, h2, h3, h4, h5, h6, h7, h8]]
    intro hm
    simp only [List.mem_cons] at hm
    rcases hm with h | h | h
    · exact absurd h (by decide)
    · exact absurd h (by decide)
    · exact hex4_no_newline _ h
  by_cases h9 : c.toNat < 0x7f
  · rw [show escChar c = [c] from by simp [escChar, h1, h2, h3, h4, h5, h6, h7, h8, h9]]
    intro hm
    simp only [List.mem_singleton] at hm
    exact h3 hm.symm
  by_cases h10 : c.toNat < 0x10000
  · rw [show escChar c = '\\' :: 'u' :: hex4 c.toNat from by
      simp [escChar, h1, h2, h3, h4, h5, h6, h7, h8, h9, h10]]
    intro hm
    simp only [List.mem_cons] at hm
    rcases hm with h | h | h
    · exact absurd h (by decide)
    · exact absurd h (by decide)
    · exact hex4_no_newline _ h
  · rw [show escChar c =
      ('\\' :: 'u' :: hex4 (0xD800 + (c.toNat - 0x10000) / 0x400)) ++
        ('\\' :: 'u' :: hex4 (0xDC00 + (c.toNat - 0x10000) % 0x400)) from by
      simp [escChar, h1, h2, h3, h4, h5, h6, h7, h8, h9, h10]]
    intro hm
    rcases List.mem_append.mp hm with h | h <;>
    · simp only [List.mem_cons] at h
      rcases h with h2 | h2 | h2
      · exact absurd h2 (by decide)
      · exact absurd h2 (by decide)
      · exact hex4_no_newline _ h2

theorem escStr_no_newline (s : List Char) : '\n' ∉ escStr s := by
  induction s with
  | nil => simp [escStr]
  | cons c t ih =>
    intro hm
    rw [show escStr (c :: t) = escChar c ++ escStr t from rfl] at hm
    rcases List.mem_append.mp hm with h | h
    · exact escChar_no_newline c h
    · exact ih h

/-- Serialized output of `json.dumps` never contains a raw newline: the
command is a single line on the wire. -/
theorem dumps_no_newline : ∀ j : Json, '\n' ∉ json_dumps j := by
  have elems_no_nl : ∀ xs : List Json, (∀ x ∈ xs, '\n' ∉ json_dumps x) →
      '\n' ∉ dumpsElems xs := by
    intro xs
    induction xs with
    | nil => intro _ hm; simp [dumpsElems] at hm
    | cons x t ih =>
      intro hall hm
      cases t with
      | nil =>
        rw [show dumpsElems [x] = json_dumps x from by simp [dumpsElems]] at hm
        exact hall x (by simp) hm
      | cons y t2 =>
        rw [show dumpsElems (x :: y :: t2) =
          json_dumps x ++ ',' :: ' ' :: dumpsElems (y :: t2) from by simp [dumpsElems]] at hm
        rcases List.mem_append.mp hm with h | h
        · exact hall x (by simp) h
        · simp only [List.mem_cons] at h
          rcases h with h | h | h
          · exact absurd h (by decide)
          · exact absurd h (by decide)
          · exact ih (fun z hz => hall z (by simp [hz])) h
  have mems_no_nl : ∀ ms : JDict, (∀ kv ∈ ms, '\n' ∉ json_dumps kv.2) →
      '\n' ∉ dumpsMembers ms := by
    intro ms
    induction ms with
    | nil => intro _ hm; simp [dumpsMembers] at hm
    | cons m t ih =>
      intro hall hm
      obtain ⟨k, v⟩ := m
      cases t with
      | nil =>
        rw [show dumpsMembers [(k, v)] =
          '"' :: escStr k ++ '"' :: ':' :: ' ' :: json_dumps v from by simp [dumpsMembers]] at hm
        simp at hm
        rcases hm with h | h
        · exact escStr_no_newline k h
        · exact hall (k, v) (by simp) h
      | cons m2 t2 =>
        rw [show dumpsMembers ((k, v) :: m2 :: t2) =
          ('"' :: escStr k ++ '"' :: ':' :: ' ' :: json_dumps v) ++
            ',' :: ' ' :: dumpsMembers (m2 :: t2) from by simp [dumpsMembers]] at hm
        simp at hm
        rcases hm with h | h | h
        · exact escStr_no_newline k h
        · exact hall (k, v) (by simp) h
        · exact ih (fun z hz => hall z (by simp [hz])) h
  intro j
  induction j using Json.indOn with
  | hnull => decide
  | hbool b => cases b <;> decide
  | hnum n =>
    intro hm
    rw [show json_dumps (.num n) = intRepr n from by simp [json_dumps]] at hm
    cases n with
    | ofNat m => exact natDigits_no_newline m hm
    | negSucc m =>
      simp only [intRepr, List.mem_cons] at hm
      rcases hm with h | h
      · exact absurd h (by decide)
      · exact natDigits_no_newline (m + 1) h
  | hstr s =>
    intro hm
    rw [show json_dumps (.str s) = '"' :: escStr s ++ ['"'] from by simp [json_dumps]] at hm
    simp only [List.cons_append, List.mem_cons, List.mem_append, List.mem_singleton] at hm
    rcases hm with h | h | h
    · exact absurd h (by decide)
    · exact escStr_no_newline s h
    · exact absurd h (by decide)
  | harr xs ih =>
    intro hm
    rw [show json_dumps (.arr xs) = '[' :: dumpsElems xs ++ [']'] from by
      simp [json_dumps]] at hm
    simp only [List.cons_append, List.mem_cons, List.mem_append, List.mem_singleton] at hm
    rcases hm with h | h | h
    · exact absurd h (by decide)
    · exact elems_no_nl xs ih h
    · exact absurd h (by decide)
  | hobj ms ih =>
    intro hm
    rw [show json_dumps (.obj ms) = lbrace :: dumpsMembers ms ++ [rbrace] from by
      simp [json_dumps]] at hm
    simp only [List.cons_append, List.mem_cons, List.mem_append, List.mem_singleton] at hm
    rcases hm with h | h | h
    · exact absurd h (by decide)
    · exact mems_no_nl ms ih h
    · exact absurd h (by decide)

theorem splitLines_append (l rest : List Char) (h : '\n' ∉ l) :
    splitLines (l ++ '\n' :: rest) = (l ++ ['\n']) :: splitLines rest := by
  induction l with
  | nil => simp [splitLines]
  | cons c t ih =>
    have hc : ¬ c = '\n' := fun he => h (he ▸ List.mem_cons_self c t)
    simp only [List.cons_append, splitLines, hc, if_false]
    rw [show t.append ('\n' :: rest) = t ++ '\n' :: rest from rfl,
      ih (fun hm => h (List.mem_cons_of_mem c hm))]

/-! ### Dictionary access lemmas -/

theorem lookupD_dictSet_self (d : JDict) (k : List Char) (v : Json) :
    lookupD (dictSet d k v) k = some v := by
  induction d with
  | nil => simp [dictSet, lookupD]
  | cons kv rest ih =>
    obtain ⟨k', v'⟩ := kv
    by_cases hk : k' = k
    · simp [dictSet, hk, lookupD]
    · simp [dictSet, hk, lookupD, ih]

theorem lookupD_dictSet_other (d : JDict) (k k2 : List Char) (v : Json) (h : k2 ≠ k) :
    lookupD (dictSet d k v) k2 = lookupD d k2 := by
  have h2 : ¬ k = k2 := fun he => h he.symm
  induction d with
  | nil => simp [dictSet, lookupD, h2]
  | cons kv rest ih =>
    obtain ⟨k', v'⟩ := kv
    by_cases hk : k' = k
    · subst hk
      simp [dictSet, lookupD, h2]
    · by_cases hk2 : k' = k2
      · subst hk2
        simp [dictSet, hk, lookupD, h]
      · simp [dictSet, hk, lookupD, hk2, ih]

/-! ## The claims

Each claim of the design review gets one theorem below (with a witness when
the theorem carries hypotheses, and a counterexample theorem where the
original wording fails on the code). -/

/-- C3 evidence.  `__exit__` polls and then calls `terminate()` exactly when
`returncode != None`: a subprocess that is STILL RUNNING at scope exit is
never signalled (first conjunct), a subprocess that has already exited IS
signalled (second), and a second release — the stored handle being `None` —
raises `AttributeError` instead of returning quietly (third).  This
contradicts the claim and the source's own comments ("Check if the server is
still running" / "Terminate the server"): the poll test is inverted. -/
theorem c3_exit_behavior :
    exitServer (some ⟨none⟩) none = .ok (none, false) ∧
    exitServer (some ⟨some 0⟩) none = .ok (none, true) ∧
    exitServer none none = .error .attributeError := by
  refine ⟨rfl, rfl, rfl⟩

/-- C4: whenever the subprocess's exit status is non-null, every subsequent
read (`_get_next_object`) and write (`_issue_command`) attempt fails with
the distinct server-exited error before touching the pipe, instead of
blocking or returning a partial parse. -/
theorem c4_server_exited (p : Proc) (code : Int) (lines : List (List Char)) (cmd : Json) :
    _get_next_object (some p) (some code) lines = .error .serverExited ∧
    _issue_command (some p) (some code) cmd = .error .serverExited := by
  have hlive : _check_server_liveliness (some p) (some code) = .error .serverExited := by
    rcases p with ⟨_ | c⟩ <;> simp [_check_server_liveliness, poll]
  exact ⟨by simp [_get_next_object, hlive], by simp [_issue_command, hlive]⟩

/-- C10 counterexample.  A command dictionary that already carries a
`"cookie"` entry does not keep that pair: the call overwrites it in place
with the fresh token, so not every pre-existing key-value pair is left
unchanged. -/
theorem c10_counterexample :
    (_issue_command_and_await_reply [(strL "cookie", .str (strL "old"))]
        (strL "new") false []).command =
      [(strL "cookie", .str (strL "new"))] ∧
    Json.str (strL "new") ≠ Json.str (strL "old") := by
  constructor
  · rfl
  · intro h
    injection h with h2
    exact absurd h2 (by decide)

/-- C10 as amended: the call mutates the caller's dictionary in place by
binding `"cookie"` to the freshly generated token before sending, and every
pair under any other key is left unchanged (a pre-existing `"cookie"` pair
is overwritten rather than preserved). -/
theorem c10_cookie_insertion (command : JDict) (cookie : List Char)
    (required : Bool) (incoming : List Json) :
    lookupD (_issue_command_and_await_reply command cookie required incoming).command
        (strL "cookie") = some (.str cookie) ∧
    ∀ k, k ≠ strL "cookie" →
      lookupD (_issue_command_and_await_reply command cookie required incoming).command k =
        lookupD command k := by
  have hcmd : (_issue_command_and_await_reply command cookie required incoming).command =
      dictSet command (strL "cookie") (.str cookie) := by
    unfold _issue_command_and_await_reply
    rcases h : (awaitLoop cookie incoming []).2 with e | ⟨t, rest⟩
    · simp [h]
    · rcases required with _ | _
      · simp [h]
      · simp only [h, Bool.true_eq]
        rcases h2 : (_raise_if_error t).2 with e2 | u <;> simp [h2]
  rw [hcmd]
  exact ⟨lookupD_dictSet_self command _ _,
    fun k hk => lookupD_dictSet_other command _ k _ hk⟩

/-- Closed instance of the C10 theorem at a concrete command. -/
theorem c10_cookie_insertion_witness :
    (lookupD (_issue_command_and_await_reply [(strL "type", .str (strL "compute"))]
        (strL "best-cookie") false []).command (strL "cookie") =
      some (.str (strL "best-cookie"))) ∧
    strL "type" ≠ strL "cookie" ∧
    lookupD (_issue_command_and_await_reply [(strL "type", .str (strL "compute"))]
        (strL "best-cookie") false []).command (strL "type") =
      lookupD [(strL "type", .str (strL "compute"))] (strL "type") := by
  obtain ⟨h1, h2⟩ := c10_cookie_insertion [(strL "type", .str (strL "compute"))]
    (strL "best-cookie") false []
  exact ⟨h1, by decide, h2 (strL "type") (by decide)⟩

/-! ### Step lemmas for the wait loop -/

theorem awaitLoop_skip_step (cookie : List Char) (m : Json) (rest : List Json)
    (outs : List OutEvent) (cv : Json)
    (h1 : jget m (strL "cookie") = .ok cv) (h2 : isStrEq cv cookie = false) :
    awaitLoop cookie (m :: rest) outs = awaitLoop cookie rest outs := by
  simp [awaitLoop, h1, h2]

theorem awaitLoop_message_step (cookie : List Char) (m : Json) (rest : List Json)
    (outs : List OutEvent) (mv : Json)
    (h1 : jget m (strL "cookie") = .ok (.str cookie))
    (h2 : jget m (strL "type") = .ok (.str (strL "message")))
    (h3 : jget m (strL "message") = .ok mv) :
    awaitLoop cookie (m :: rest) outs = awaitLoop cookie rest (outs ++ [.writeln mv]) := by
  simp [awaitLoop, h1, h2, h3, isStrEq]

theorem awaitLoop_progress_step (cookie : List Char) (m : Json) (rest : List Json)
    (outs : List OutEvent)
    (h1 : jget m (strL "cookie") = .ok (.str cookie))
    (h2 : jget m (strL "type") = .ok (.str (strL "progress"))) :
    awaitLoop cookie (m :: rest) outs = awaitLoop cookie rest outs := by
  have hne : (strL "progress" == strL "message") = false := by decide
  simp [awaitLoop, h1, h2, isStrEq, hne]

theorem strL_error_ne_message : strL "error" ≠ strL "message" := by decide

theorem strL_error_ne_progress : strL "error" ≠ strL "progress" := by decide

theorem strL_reply_ne_message : strL "reply" ≠ strL "message" := by decide

theorem strL_reply_ne_progress : strL "reply" ≠ strL "progress" := by decide

theorem awaitLoop_terminal_step (cookie : List Char) (m : Json) (rest : List Json)
    (outs : List OutEvent) (tv : Json)
    (h1 : jget m (strL "cookie") = .ok (.str cookie))
    (h2 : jget m (strL "type") = .ok tv)
    (h3 : (isStrEq tv (strL "error") || isStrEq tv (strL "reply")) = true) :
    awaitLoop cookie (m :: rest) outs = (outs, .ok (m, rest)) := by
  rcases tv with _ | b | n | s | xs | ms <;> simp [isStrEq] at h3
  rcases h3 with h3 | h3 <;>
  · subst h3
    simp [awaitLoop, h1, h2, isStrEq, strL_error_ne_message, strL_error_ne_progress,
      strL_reply_ne_message, strL_reply_ne_progress]

/-- The wait loop hands back a terminal message only when it bears the
call's cookie and is tagged `reply` or `error`. -/
theorem awaitLoop_ok_shape (cookie : List Char) :
    ∀ (msgs : List Json) (outs outs2 : List OutEvent) (t : Json) (rest : List Json),
    awaitLoop cookie msgs outs = (outs2, .ok (t, rest)) →
    jget t (strL "cookie") = .ok (.str cookie) ∧
    ∃ tv, jget t (strL "type") = .ok tv ∧
      (isStrEq tv (strL "error") || isStrEq tv (strL "reply")) = true := by
  intro msgs
  induction msgs with
  | nil =>
    intro outs outs2 t rest h
    simp [awaitLoop] at h
  | cons m tail ih =>
    intro outs outs2 t rest h
    rcases h1 : jget m (strL "cookie") with e | cv
    · simp [awaitLoop, h1] at h
    rcases h2 : isStrEq cv cookie with _ | _
    · rw [awaitLoop_skip_step cookie m tail outs cv h1 h2] at h
      exact ih outs outs2 t rest h
    · have hcv : cv = .str cookie := by
        rcases cv with _ | b | n | s | xs | ms <;> simp [isStrEq] at h2
        exact congrArg Json.str h2
      subst hcv
      rcases h3 : jget m (strL "type") with e | tv
      · simp [awaitLoop, h1, h2, h3] at h
      rcases tv with _ | b | n | s | xs | ms
      case' str =>
        by_cases hm : s = strL "message"
        · subst hm
          rcases h5 : jget m (strL "message") with e | mv
          · simp [awaitLoop, h1, h2, h3, h5, isStrEq] at h
          · rw [awaitLoop_message_step cookie m tail outs mv h1 h3 h5] at h
            exact ih _ outs2 t rest h
        by_cases hp : s = strL "progress"
        · subst hp
          rw [awaitLoop_progress_step cookie m tail outs h1 h3] at h
          exact ih outs outs2 t rest h
        by_cases hterm : s = strL "error" ∨ s = strL "reply"
        · have h6 : (isStrEq (.str s) (strL "error") || isStrEq (.str s) (strL "reply")) =
              true := by
            rcases hterm with h7 | h7 <;> simp [isStrEq, h7]
          rw [awaitLoop_terminal_step cookie m tail outs (.str s) h1 h3 h6] at h
          have ho : outs = outs2 ∧ m = t ∧ tail = rest := by
            have hp1 := congrArg Prod.fst h
            have hp2 := congrArg Prod.snd h
            simp at hp1 hp2
            exact ⟨hp1, hp2.1, hp2.2⟩
          obtain ⟨-, ht, -⟩ := ho
          subst ht
          exact ⟨h1, .str s, h3, h6⟩
        · push_neg at hterm
          simp [awaitLoop, h1, h2, h3, isStrEq, hm, hp, hterm.1, hterm.2] at h
      all_goals simp [awaitLoop, h1, h2, h3, isStrEq] at h

/-- Any run of non-terminal messages is consumed and the first terminal
message bearing the cookie is returned, with the stream after it intact. -/
theorem awaitLoop_prefix_run (cookie : List Char) :
    ∀ (pre : List Json), (∀ m ∈ pre, nonTerminal cookie m) →
    ∀ (outs : List OutEvent) (t : Json) (tv : Json) (rest : List Json),
    jget t (strL "cookie") = .ok (.str cookie) →
    jget t (strL "type") = .ok tv →
    (isStrEq tv (strL "error") || isStrEq tv (strL "reply")) = true →
    ∃ outs2, awaitLoop cookie (pre ++ t :: rest) outs = (outs2, .ok (t, rest)) := by
  intro pre
  induction pre with
  | nil =>
    intro _ outs t tv rest h1 h2 h3
    exact ⟨outs, awaitLoop_terminal_step cookie t rest outs tv h1 h2 h3⟩
  | cons m pre2 ih =>
    intro hpre outs t tv rest h1 h2 h3
    have hm := hpre m (List.mem_cons_self m pre2)
    have hrec := ih (fun z hz => hpre z (List.mem_cons_of_mem m hz))
    rcases hm with ⟨cv, hcv, hne⟩ | ⟨hck, ⟨hmsg, mv, hmv⟩ | hprog⟩
    · rw [List.cons_append, awaitLoop_skip_step cookie m (pre2 ++ t :: rest) outs cv hcv hne]
      exact hrec outs t tv rest h1 h2 h3
    · rw [List.cons_append,
        awaitLoop_message_step cookie m (pre2 ++ t :: rest) outs mv hck hmsg hmv]
      exact hrec _ t tv rest h1 h2 h3
    · rw [List.cons_append, awaitLoop_progress_step cookie m (pre2 ++ t :: rest) outs hck hprog]
      exact hrec outs t tv rest h1 h2 h3

/-- C2: for a command awaiting the reply to cookie C, (i) every incoming
message whose cookie differs from C is consumed and the wait loop continues
with nothing else changed; (ii) whenever the loop returns normally, the
returned message bears cookie C and is tagged `reply` or `error`; (iii)
after any run of unrelated or notification messages, the loop returns
exactly the first terminal message bearing C, with the stream after it
untouched. -/
theorem c2_cookie_correlation (cookie : List Char) :
    (∀ (m : Json) (rest : List Json) (outs : List OutEvent) (cv : Json),
      jget m (strL "cookie") = .ok cv → isStrEq cv cookie = false →
      awaitLoop cookie (m :: rest) outs = awaitLoop cookie rest outs) ∧
    (∀ (msgs : List Json) (outs outs2 : List OutEvent) (t : Json) (rest : List Json),
      awaitLoop cookie msgs outs = (outs2, .ok (t, rest)) →
      jget t (strL "cookie") = .ok (.str cookie) ∧
      ∃ tv, jget t (strL "type") = .ok tv ∧
        (isStrEq tv (strL "error") || isStrEq tv (strL "reply")) = true) ∧
    (∀ pre : List Json, (∀ m ∈ pre, nonTerminal cookie m) →
      ∀ (t tv : Json) (rest : List Json),
        jget t (strL "cookie") = .ok (.str cookie) →
        jget t (strL "type") = .ok tv →
        (isStrEq tv (strL "error") || isStrEq tv (strL "reply")) = true →
        ∃ outs2, awaitLoop cookie (pre ++ t :: rest) [] = (outs2, .ok (t, rest))) :=
  ⟨fun m rest outs cv h1 h2 => awaitLoop_skip_step cookie m rest outs cv h1 h2,
   awaitLoop_ok_shape cookie,
   fun pre hpre t tv rest h1 h2 h3 =>
     awaitLoop_prefix_run cookie pre hpre [] t tv rest h1 h2 h3⟩

/-- Closed instance of the C2 theorem: two unrelated messages precede the
matching reply, which is returned with the rest of the stream intact. -/
theorem c2_cookie_correlation_witness :
    (awaitLoop (strL "c")
        (Json.obj [(strL "cookie", .str (strL "x"))] ::
          Json.obj [(strL "cookie", .str (strL "c")),
                    (strL "type", .str (strL "progress"))] :: []) [] =
      awaitLoop (strL "c")
        (Json.obj [(strL "cookie", .str (strL "c")),
                   (strL "type", .str (strL "progress"))] :: []) []) ∧
    (∃ outs2, awaitLoop (strL "c")
        ([Json.obj [(strL "cookie", .str (strL "x"))],
          Json.obj [(strL "cookie", .str (strL "c")),
                    (strL "type", .str (strL "progress"))]] ++
          Json.obj [(strL "cookie", .str (strL "c")),
                    (strL "type", .str (strL "reply"))] ::
            [Json.obj [(strL "cookie", .str (strL "later"))]]) [] =
      (outs2, .ok (Json.obj [(strL "cookie", .str (strL "c")),
                             (strL "type", .str (strL "reply"))],
                   [Json.obj [(strL "cookie", .str (strL "later"))]]))) := by
  obtain ⟨hskip, hshape, hrun⟩ := c2_cookie_correlation (strL "c")
  constructor
  · exact hskip (Json.obj [(strL "cookie", .str (strL "x"))]
      ) _ [] (.str (strL "x")) rfl (by decide)
  · apply hrun
    · intro m hm
      simp only [List.mem_cons, List.mem_singleton, List.not_mem_nil, or_false] at hm
      rcases hm with h | h
      · subst h
        exact Or.inl ⟨.str (strL "x"), rfl, by decide⟩
      · subst h
        exact Or.inr ⟨rfl, Or.inr rfl⟩
    · rfl
    · rfl
    · decide

/-- C7 counterexample.  During a wait for cookie `"c"`, a `message`-tagged
notification bearing a DIFFERENT cookie is consumed without anything being
forwarded to the output sink (the loop's output list stays empty), so not
every received `message`-tagged message is forwarded: the cookie filter
runs first. -/
theorem c7_counterexample :
    awaitLoop (strL "c")
        [Json.obj [(strL "cookie", .str (strL "other")),
                   (strL "type", .str (strL "message")),
                   (strL "message", .str (strL "lost line"))],
         Json.obj [(strL "cookie", .str (strL "c")),
                   (strL "type", .str (strL "reply"))]] [] =
      ([], .ok (Json.obj [(strL "cookie", .str (strL "c")),
                          (strL "type", .str (strL "reply"))], [])) ∧
    jget (Json.obj [(strL "cookie", .str (strL "other")),
                    (strL "type", .str (strL "message")),
                    (strL "message", .str (strL "lost line"))]) (strL "type") =
      .ok (.str (strL "message")) := ⟨rfl, rfl⟩

/-- C7 as amended: during a call's wait loop, every received message tagged
`message` that bears the call's cookie is forwarded to the output sink and
the loop continues; one tagged `progress` with the call's cookie is
silently discarded and the loop continues; and a message bearing a
different cookie is consumed without being forwarded, also continuing the
loop. -/
theorem c7_notifications (cookie : List Char) (m : Json) (rest : List Json)
    (outs : List OutEvent) :
    (∀ mv, jget m (strL "cookie") = .ok (.str cookie) →
      jget m (strL "type") = .ok (.str (strL "message")) →
      jget m (strL "message") = .ok mv →
      awaitLoop cookie (m :: rest) outs = awaitLoop cookie rest (outs ++ [.writeln mv])) ∧
    (jget m (strL "cookie") = .ok (.str cookie) →
      jget m (strL "type") = .ok (.str (strL "progress")) →
      awaitLoop cookie (m :: rest) outs = awaitLoop cookie rest outs) ∧
    (∀ cv, jget m (strL "cookie") = .ok cv → isStrEq cv cookie = false →
      awaitLoop cookie (m :: rest) outs = awaitLoop cookie rest outs) :=
  ⟨fun mv h1 h2 h3 => awaitLoop_message_step cookie m rest outs mv h1 h2 h3,
   fun h1 h2 => awaitLoop_progress_step cookie m rest outs h1 h2,
   fun cv h1 h2 => awaitLoop_skip_step cookie m rest outs cv h1 h2⟩

/-- Closed instance of the C7 theorem at concrete notifications. -/
theorem c7_notifications_witness :
    (awaitLoop (strL "c")
        [Json.obj [(strL "cookie", .str (strL "c")),
                   (strL "type", .str (strL "message")),
                   (strL "message", .str (strL "hello there"))]] [] =
      awaitLoop (strL "c") [] ([] ++ [.writeln (.str (strL "hello there"))])) ∧
    (awaitLoop (strL "c")
        [Json.obj [(strL "cookie", .str (strL "c")),
                   (strL "type", .str (strL "progress"))]] [] =
      awaitLoop (strL "c") [] []) := by
  obtain ⟨hmsg, hprog, -⟩ := c7_notifications (strL "c")
    (Json.obj [(strL "cookie", .str (strL "c")),
               (strL "type", .str (strL "message")),
               (strL "message", .str (strL "hello there"))]) [] []
  refine ⟨hmsg (.str (strL "hello there")) rfl rfl rfl, ?_⟩
  obtain ⟨-, hprog2, -⟩ := c7_notifications (strL "c")
    (Json.obj [(strL "cookie", .str (strL "c")),
               (strL "type", .str (strL "progress"))]) [] []
  exact hprog2 rfl rfl

/-- C8: a required call whose terminal reply is tagged `error` fails with
the distinct ServerRequestError, and the output sink receives the line
`"CMake Server: %s" % errorMessage` — carrying the server's error text —
appended after the loop's output, before the caller observes the failure;
a terminal reply not tagged `error` raises nothing and the error reporter
writes nothing. -/
theorem c8_required_error (command : JDict) (cookie : List Char) (incoming : List Json)
    (outs1 : List OutEvent) (t : Json) (rest : List Json)
    (hloop : awaitLoop cookie incoming [] = (outs1, .ok (t, rest))) :
    (∀ emsg, jget t (strL "type") = .ok (.str (strL "error")) →
      jget t (strL "errorMessage") = .ok (.str emsg) →
      (_issue_command_and_await_reply command cookie true incoming).result =
        .error .serverRequestError ∧
      (_issue_command_and_await_reply command cookie true incoming).outs =
        outs1 ++ [.errorLine (.str emsg)]) ∧
    (∀ tv, jget t (strL "type") = .ok tv → isStrEq tv (strL "error") = false →
      (_issue_command_and_await_reply command cookie true incoming).result = .ok t ∧
      (_issue_command_and_await_reply command cookie true incoming).outs = outs1) := by
  constructor
  · intro emsg hty hmsg
    have hre : _raise_if_error t = ([.errorLine (.str emsg)], .error .serverRequestError) := by
      simp [_raise_if_error, hty, hmsg, isStrEq]
    unfold _issue_command_and_await_reply
    simp [hloop, hre]
  · intro tv hty hne
    have hre : _raise_if_error t = ([], .ok ()) := by
      simp [_raise_if_error, hty, hne]
    unfold _issue_command_and_await_reply
    simp [hloop, hre]

/-- Closed instance of the C8 theorem: a failing required call and a
succeeding one, at concrete terminal messages. -/
theorem c8_required_error_witness :
    ((_issue_command_and_await_reply [(strL "type", .str (strL "configure"))] (strL "c") true
        [Json.obj [(strL "cookie", .str (strL "c")),
                   (strL "type", .str (strL "error")),
                   (strL "errorMessage", .str (strL "boom"))]]).result =
      .error .serverRequestError ∧
     (_issue_command_and_await_reply [(strL "type", .str (strL "configure"))] (strL "c") true
        [Json.obj [(strL "cookie", .str (strL "c")),
                   (strL "type", .str (strL "error")),
                   (strL "errorMessage", .str (strL "boom"))]]).outs =
      [] ++ [.errorLine (.str (strL "boom"))]) ∧
    ((_issue_command_and_await_reply [(strL "type", .str (strL "compute"))] (strL "c") true
        [Json.obj [(strL "cookie", .str (strL "c")),
                   (strL "type", .str (strL "reply"))]]).result =
      .ok (Json.obj [(strL "cookie", .str (strL "c")),
                     (strL "type", .str (strL "reply"))]) ∧
     (_issue_command_and_await_reply [(strL "type", .str (strL "compute"))] (strL "c") true
        [Json.obj [(strL "cookie", .str (strL "c")),
                   (strL "type", .str (strL "reply"))]]).outs = []) := by
  constructor
  · exact (c8_required_error [(strL "type", .str (strL "configure"))] (strL "c")
      [Json.obj [(strL "cookie", .str (strL "c")),
                 (strL "type", .str (strL "error")),
                 (strL "errorMessage", .str (strL "boom"))]] []
      (Json.obj [(strL "cookie", .str (strL "c")),
                 (strL "type", .str (strL "error")),
                 (strL "errorMessage", .str (strL "boom"))]) []
      rfl).1 (strL "boom") rfl rfl
  · exact (c8_required_error [(strL "type", .str (strL "compute"))] (strL "c")
      [Json.obj [(strL "cookie", .str (strL "c")),
                 (strL "type", .str (strL "reply"))]] []
      (Json.obj [(strL "cookie", .str (strL "c")),
                 (strL "type", .str (strL "reply"))]) []
      rfl).2 (.str (strL "reply")) rfl (by decide)

/-! ### Version selection lemmas -/

theorem jget_mkVer_major (mj mn : Int) : jget (mkVer mj mn) (strL "major") = .ok (.num mj) := by
  simp [mkVer, jget, lookupD]

theorem jget_mkVer_minor (mj mn : Int) : jget (mkVer mj mn) (strL "minor") = .ok (.num mn) := by
  have hne : ¬ strL "major" = strL "minor" := by decide
  simp [mkVer, jget, lookupD, hne]

theorem selectLoop_cons_mkVer (mj mn : Int) (rest : List Json) (a b : Int) :
    selectLoop (mkVer mj mn :: rest) a b =
      if mj = 1 then selectLoop rest 1 (if b < mn then mn else b)
      else selectLoop rest a b := by
  simp [selectLoop, jget_mkVer_major, jget_mkVer_minor, isNumEq]

theorem selectLoop_mkVer_fold (vs : List (Int × Int)) : ∀ a b : Int,
    selectLoop (vs.map (fun p => mkVer p.1 p.2)) a b = .ok (vs.foldl verStep (a, b)) := by
  induction vs with
  | nil => intro a b; rfl
  | cons p vs2 ih =>
    intro a b
    rw [List.map_cons, selectLoop_cons_mkVer]
    by_cases hp : p.1 = 1
    · have hmax : (if b < p.2 then p.2 else b) = max b p.2 := by
        rcases lt_or_le b p.2 with h | h
        · simp [h, max_eq_right h.le]
        · simp [not_lt.mpr h, max_eq_left h]
      simp only [hp, if_true, hmax, ih]
      simp [verStep, hp]
    · simp only [hp, if_false, ih]
      simp [verStep, hp]

theorem foldl_verStep (vs : List (Int × Int)) : ∀ a b : Int,
    vs.foldl verStep (a, b) =
      (if vs.any (fun p => p.1 = 1) then 1 else a,
       ((vs.filter (fun p => p.1 = 1)).map Prod.snd).foldl max b) := by
  induction vs with
  | nil => intro a b; simp
  | cons p vs2 ih =>
    intro a b
    by_cases hp : p.1 = 1
    · simp only [List.foldl_cons, verStep, hp, if_true, List.any_cons, List.filter_cons,
        List.map_cons]
      rw [ih 1 (max b p.2)]
      simp [hp]
    · simp only [List.foldl_cons, verStep, hp, if_false, List.any_cons, List.filter_cons]
      rw [ih a b]
      simp only [hp, decide_False, Bool.false_or]
      simp [hp]

/-- C1 counterexample.  For the greeting list whose single entry has
major 1 and minor −1, the maximum minor among major-1 entries is −1, but
the negotiator selects (1, 0): the loop's minor accumulator starts at 0 and
is only ever raised. -/
theorem c1_counterexample :
    ((([((1 : Int), (-1 : Int))].filter (fun p => p.1 = 1)).map Prod.snd) = [(-1 : Int)]) ∧
    selectLoop [mkVer 1 (-1)] 0 0 = .ok (1, 0) ∧
    ((1 : Int), (0 : Int)) ≠ ((1 : Int), (-1 : Int)) := by
  refine ⟨by decide, rfl, by decide⟩

/-- C1 as amended: for every greeting whose supported-version list contains
at least one major-1 entry, the negotiator selects protocol version (1, m)
where m is the maximum of 0 and the minors of the major-1 entries — equal to
the maximum minor whenever some major-1 minor is nonnegative — regardless of
the order of entries and of entries with other majors being present. -/
theorem c1_version_selection (vs : List (Int × Int)) (hex : ∃ p ∈ vs, p.1 = 1) :
    selectLoop (vs.map (fun p => mkVer p.1 p.2)) 0 0 =
      .ok (1, ((vs.filter (fun p => p.1 = 1)).map Prod.snd).foldl max 0) ∧
    ∀ vs2 : List (Int × Int), vs.Perm vs2 →
      selectLoop (vs2.map (fun p => mkVer p.1 p.2)) 0 0 =
        selectLoop (vs.map (fun p => mkVer p.1 p.2)) 0 0 := by
  have hany : vs.any (fun p => p.1 = 1) = true := by
    rcases hex with ⟨p, hp, h1⟩
    exact List.any_eq_true.mpr ⟨p, hp, by simp [h1]⟩
  constructor
  · rw [selectLoop_mkVer_fold, foldl_verStep]
    simp [hany]
  · intro vs2 hperm
    rw [selectLoop_mkVer_fold, selectLoop_mkVer_fold]
    exact congrArg Except.ok ((hperm.foldl_eq (0, 0)).symm)

/-- Closed instance of the C1 theorem: majors 2 and 1 mixed, out of order;
the selected version is (1, 3), the largest minor among the major-1
entries. -/
theorem c1_version_selection_witness :
    selectLoop ([((2 : Int), (9 : Int)), (1, 0), (1, 3), (1, 1)].map
      (fun p => mkVer p.1 p.2)) 0 0 = .ok (1, 3) := by
  have h := (c1_version_selection [(2, 9), (1, 0), (1, 3), (1, 1)]
    ⟨(1, 0), by decide, rfl⟩).1
  simpa using h

/-- C9: a greeting whose supported-version list contains no major-1 entry
makes session establishment fail with the no-compatible-protocol handshake
failure, and no handshake command (indeed no command at all) is written to
the subprocess. -/
theorem c9_no_protocol (cfg : SessionCfg) (cookie1 cookie2 : List Char)
    (vs : List (Int × Int)) (stream : List Json)
    (hno : ∀ p ∈ vs, p.1 ≠ 1) :
    (enterAfterSpawn cfg cookie1 cookie2
        (Json.obj [(strL "type", .str (strL "hello")),
                   (strL "supportedProtocolVersions",
                     .arr (vs.map (fun p => mkVer p.1 p.2)))] :: stream)).result =
      .error .noCompatibleProtocol ∧
    (enterAfterSpawn cfg cookie1 cookie2
        (Json.obj [(strL "type", .str (strL "hello")),
                   (strL "supportedProtocolVersions",
                     .arr (vs.map (fun p => mkVer p.1 p.2)))] :: stream)).sent = [] := by
  have hany : vs.any (fun p => p.1 = 1) = false := by
    rw [List.any_eq_false]
    intro p hp
    simp [hno p hp]
  have hsel : selectLoop (vs.map (fun p => mkVer p.1 p.2)) 0 0 =
      .ok (0, ((vs.filter (fun p => p.1 = 1)).map Prod.snd).foldl max 0) := by
    rw [selectLoop_mkVer_fold, foldl_verStep]
    simp [hany]
  have hne : ¬ strL "type" = strL "supportedProtocolVersions" := by decide
  constructor <;>
    simp [enterAfterSpawn, jget, lookupD, hne, isStrEq, hsel]

/-- Closed instance of the C9 theorem: a greeting offering only 2.x and 3.x
protocols. -/
theorem c9_no_protocol_witness :
    (enterAfterSpawn ⟨strL "/src", strL "/build", strL "Ninja", .null, .str (strL "Linux")⟩
        (strL "c1") (strL "c2")
        (Json.obj [(strL "type", .str (strL "hello")),
                   (strL "supportedProtocolVersions",
                     .arr ([((2 : Int), (0 : Int)), (3, 1)].map
                       (fun p => mkVer p.1 p.2)))] :: [])).result =
      .error .noCompatibleProtocol ∧
    (enterAfterSpawn ⟨strL "/src", strL "/build", strL "Ninja", .null, .str (strL "Linux")⟩
        (strL "c1") (strL "c2")
        (Json.obj [(strL "type", .str (strL "hello")),
                   (strL "supportedProtocolVersions",
                     .arr ([((2 : Int), (0 : Int)), (3, 1)].map
                       (fun p => mkVer p.1 p.2)))] :: [])).sent = [] :=
  c9_no_protocol ⟨strL "/src", strL "/build", strL "Ninja", .null, .str (strL "Linux")⟩
    (strL "c1") (strL "c2") [(2, 0), (3, 1)] [] (by decide)

/-- C5: writing a command with `_issue_command` produces exactly the framed
single-line serialization, and feeding those very bytes (split into
`readline` results) back into `_get_next_object` returns a JSON structure
equal to the original command, with only the trailing blank line left
unread.  Stated for documents with duplicate-free object keys — the image
of every Python dictionary — with numbers restricted to the integers this
client uses. -/
theorem c5_wire_roundtrip (cmd : Json) (p : Proc) (hwf : wfB cmd = true)
    (hp : p.returncode = none) :
    _issue_command (some p) none cmd =
      .ok (headerLine ++ json_dumps cmd ++ '\n' :: footerLine ++ ['\n']) ∧
    _get_next_object (some p) none
      (splitLines (headerLine ++ json_dumps cmd ++ '\n' :: footerLine ++ ['\n'])) =
      .ok (cmd, [['\n']]) := by
  have hlive : _check_server_liveliness (some p) none = .ok ⟨none⟩ := by
    rcases p with ⟨rc⟩
    simp only at hp
    subst hp
    simp [_check_server_liveliness, poll]
  constructor
  · simp [_issue_command, hlive]
  · have hnl : '\n' ∉ json_dumps cmd := dumps_no_newline cmd
    have hsplit : splitLines (headerLine ++ json_dumps cmd ++ '\n' :: footerLine ++ ['\n']) =
        [headerLine, json_dumps cmd ++ ['\n'], footerLine, ['\n']] := by
      have hhb : '\n' ∉ strL "[== \"CMake Server\" ==[" := by decide
      have hfb : '\n' ∉ strL "]== \"CMake Server\" ==]" := by decide
      rw [show headerLine ++ json_dumps cmd ++ '\n' :: footerLine ++ ['\n'] =
        strL "[== \"CMake Server\" ==[" ++ '\n' ::
          (json_dumps cmd ++ '\n' ::
            (strL "]== \"CMake Server\" ==]" ++ '\n' :: ['\n'])) from by
        simp [headerLine, footerLine]]
      rw [splitLines_append _ _ hhb, splitLines_append _ _ hnl, splitLines_append _ _ hfb]
      simp [splitLines, headerLine, footerLine]
    rw [hsplit]
    have hne_footer : ¬ (json_dumps cmd ++ ['\n'] = footerLine) := by
      obtain ⟨c, t, hct, _, hbr, _, _⟩ := dumps_headOk cmd
      rw [hct]
      intro he
      have head := congrArg List.head? he
      have hf : footerLine.head? = some ']' := by decide
      rw [hf] at head
      simp only [List.cons_append, List.head?_cons, Option.some.injEq] at head
      exact hbr head
    simp [_get_next_object, hlive, scanHeader, readBody, hne_footer,
      json_loads_dumps_newline cmd hwf]

/-- Closed instance of the C5 theorem at a concrete configure command. -/
theorem c5_wire_roundtrip_witness :
    wfB (.obj [(strL "type", .str (strL "configure")),
               (strL "cacheArguments", .arr [.str (strL "-DX=1")]),
               (strL "cookie", .str (strL "k"))]) = true ∧
    (_issue_command (some ⟨none⟩) none
        (.obj [(strL "type", .str (strL "configure")),
               (strL "cacheArguments", .arr [.str (strL "-DX=1")]),
               (strL "cookie", .str (strL "k"))]) =
      .ok (headerLine ++ json_dumps
          (.obj [(strL "type", .str (strL "configure")),
                 (strL "cacheArguments", .arr [.str (strL "-DX=1")]),
                 (strL "cookie", .str (strL "k"))]) ++ '\n' :: footerLine ++ ['\n']) ∧
     _get_next_object (some ⟨none⟩) none
        (splitLines (headerLine ++ json_dumps
          (.obj [(strL "type", .str (strL "configure")),
                 (strL "cacheArguments", .arr [.str (strL "-DX=1")]),
                 (strL "cookie", .str (strL "k"))]) ++ '\n' :: footerLine ++ ['\n'])) =
      .ok (.obj [(strL "type", .str (strL "configure")),
                 (strL "cacheArguments", .arr [.str (strL "-DX=1")]),
                 (strL "cookie", .str (strL "k"))], [['\n']])) :=
  ⟨rfl, c5_wire_roundtrip
    (.obj [(strL "type", .str (strL "configure")),
           (strL "cacheArguments", .arr [.str (strL "-DX=1")]),
           (strL "cookie", .str (strL "k"))]) ⟨none⟩ rfl rfl⟩

/-! ### Required-call characterizations -/

theorem call_sent (command : JDict) (cookie : List Char) (required : Bool)
    (incoming : List Json) :
    (_issue_command_and_await_reply command cookie required incoming).sent =
      [dictSet command (strL "cookie") (.str cookie)] := by
  unfold _issue_command_and_await_reply
  rcases h : (awaitLoop cookie incoming []).2 with e | ⟨t, rest⟩
  · simp [h]
  · rcases required with _ | _
    · simp [h]
    · simp only [h, Bool.true_eq]
      rcases h2 : (_raise_if_error t).2 with e2 | u <;> simp [h, h2]

theorem required_call_error_eq (command : JDict) (cookie : List Char)
    (incoming : List Json) (outs1 : List OutEvent) (t : Json) (rest : List Json)
    (emsg : List Char)
    (hloop : awaitLoop cookie incoming [] = (outs1, .ok (t, rest)))
    (hty : jget t (strL "type") = .ok (.str (strL "error")))
    (hmsg : jget t (strL "errorMessage") = .ok (.str emsg)) :
    _issue_command_and_await_reply command cookie true incoming =
      ⟨dictSet command (strL "cookie") (.str cookie),
       [dictSet command (strL "cookie") (.str cookie)],
       outs1 ++ [.errorLine (.str emsg)], .error .serverRequestError, rest⟩ := by
  have hre : _raise_if_error t = ([.errorLine (.str emsg)], .error .serverRequestError) := by
    simp [_raise_if_error, hty, hmsg, isStrEq]
  unfold _issue_command_and_await_reply
  simp [hloop, hre]

theorem required_call_ok_eq (command : JDict) (cookie : List Char)
    (incoming : List Json) (outs1 : List OutEvent) (t : Json) (rest : List Json) (tv : Json)
    (hloop : awaitLoop cookie incoming [] = (outs1, .ok (t, rest)))
    (hty : jget t (strL "type") = .ok tv)
    (hne : isStrEq tv (strL "error") = false) :
    _issue_command_and_await_reply command cookie true incoming =
      ⟨dictSet command (strL "cookie") (.str cookie),
       [dictSet command (strL "cookie") (.str cookie)],
       outs1, .ok t, rest⟩ := by
  have hre : _raise_if_error t = ([], .ok ()) := by
    simp [_raise_if_error, hty, hne]
  unfold _issue_command_and_await_reply
  simp [hloop, hre]

theorem configure_cmd_cookie (defs : List (List Char × List Char)) (cookie1 : List Char) :
    dictSet [(strL "type", .str (strL "configure")),
             (strL "cacheArguments",
               .arr ((defs.map (fun (kv : List Char × List Char) =>
                 strL "-D" ++ kv.1 ++ strL "=" ++ kv.2)).map .str))]
        (strL "cookie") (.str cookie1) =
      [(strL "type", .str (strL "configure")),
       (strL "cacheArguments",
         .arr ((defs.map (fun (kv : List Char × List Char) =>
           strL "-D" ++ kv.1 ++ strL "=" ++ kv.2)).map .str)),
       (strL "cookie", .str cookie1)] := by
  have h1 : ¬ strL "type" = strL "cookie" := by decide
  have h2 : ¬ strL "cacheArguments" = strL "cookie" := by decide
  simp [dictSet, h1, h2]

theorem compute_cmd_cookie (cookie2 : List Char) :
    dictSet [(strL "type", .str (strL "compute"))] (strL "cookie") (.str cookie2) =
      [(strL "type", .str (strL "compute")), (strL "cookie", .str cookie2)] := by
  have h1 : ¬ strL "type" = strL "cookie" := by decide
  simp [dictSet, h1]

/-- C6: `configure(defs)` (i) always issues first the `configure` command
whose `cacheArguments` list has exactly one `-D<name>=<value>` entry per
mapping entry, in the mapping's iteration order, tagged with the call's
cookie; (ii) if that required call's terminal reply is an error, the whole
operation aborts with ServerRequestError and the `compute` command is never
issued (no retry: exactly one command was sent); (iii) if the `configure`
call succeeds, the parameterless `compute` command is issued exactly once
as the second and last command; (iv) `compute` is itself a required call:
if its terminal reply is an error, the whole operation aborts with
ServerRequestError, each of the two commands having been sent exactly once
(no retry); (v) if both required calls succeed, the operation succeeds. -/
theorem c6_configure_sequence (defs : List (List Char × List Char))
    (cookie1 cookie2 : List Char) (incoming : List Json) :
    ((_configure (some defs) cookie1 cookie2 incoming).sent.head? =
      some [(strL "type", .str (strL "configure")),
            (strL "cacheArguments",
              .arr ((defs.map (fun (kv : List Char × List Char) =>
                strL "-D" ++ kv.1 ++ strL "=" ++ kv.2)).map .str)),
            (strL "cookie", .str cookie1)]) ∧
    (∀ (outs1 : List OutEvent) (t : Json) (rest : List Json) (emsg : List Char),
      awaitLoop cookie1 incoming [] = (outs1, .ok (t, rest)) →
      jget t (strL "type") = .ok (.str (strL "error")) →
      jget t (strL "errorMessage") = .ok (.str emsg) →
      (_configure (some defs) cookie1 cookie2 incoming).sent =
        [[(strL "type", .str (strL "configure")),
          (strL "cacheArguments",
            .arr ((defs.map (fun (kv : List Char × List Char) =>
              strL "-D" ++ kv.1 ++ strL "=" ++ kv.2)).map .str)),
          (strL "cookie", .str cookie1)]] ∧
      (_configure (some defs) cookie1 cookie2 incoming).result =
        .error .serverRequestError) ∧
    (∀ (outs1 : List OutEvent) (t : Json) (rest : List Json) (tv : Json),
      awaitLoop cookie1 incoming [] = (outs1, .ok (t, rest)) →
      jget t (strL "type") = .ok tv → isStrEq tv (strL "error") = false →
      (_configure (some defs) cookie1 cookie2 incoming).sent =
        [[(strL "type", .str (strL "configure")),
          (strL "cacheArguments",
            .arr ((defs.map (fun (kv : List Char × List Char) =>
              strL "-D" ++ kv.1 ++ strL "=" ++ kv.2)).map .str)),
          (strL "cookie", .str cookie1)],
         [(strL "type", .str (strL "compute")), (strL "cookie", .str cookie2)]]) ∧
    (∀ (outs1 outs2 : List OutEvent) (t1 t2 : Json) (rest1 rest2 : List Json)
        (tv1 : Json) (emsg : List Char),
      awaitLoop cookie1 incoming [] = (outs1, .ok (t1, rest1)) →
      jget t1 (strL "type") = .ok tv1 → isStrEq tv1 (strL "error") = false →
      awaitLoop cookie2 rest1 [] = (outs2, .ok (t2, rest2)) →
      jget t2 (strL "type") = .ok (.str (strL "error")) →
      jget t2 (strL "errorMessage") = .ok (.str emsg) →
      (_configure (some defs) cookie1 cookie2 incoming).result =
        .error .serverRequestError ∧
      (_configure (some defs) cookie1 cookie2 incoming).sent =
        [[(strL "type", .str (strL "configure")),
          (strL "cacheArguments",
            .arr ((defs.map (fun (kv : List Char × List Char) =>
              strL "-D" ++ kv.1 ++ strL "=" ++ kv.2)).map .str)),
          (strL "cookie", .str cookie1)],
         [(strL "type", .str (strL "compute")), (strL "cookie", .str cookie2)]]) ∧
    (∀ (outs1 outs2 : List OutEvent) (t1 t2 : Json) (rest1 rest2 : List Json)
        (tv1 tv2 : Json),
      awaitLoop cookie1 incoming [] = (outs1, .ok (t1, rest1)) →
      jget t1 (strL "type") = .ok tv1 → isStrEq tv1 (strL "error") = false →
      awaitLoop cookie2 rest1 [] = (outs2, .ok (t2, rest2)) →
      jget t2 (strL "type") = .ok tv2 → isStrEq tv2 (strL "error") = false →
      (_configure (some defs) cookie1 cookie2 incoming).result = .ok ()) := by
  refine ⟨?_, ?_, ?_, ?_, ?_⟩
  · have hs1 := call_sent [(strL "type", .str (strL "configure")),
      (strL "cacheArguments",
        .arr ((defs.map (fun (kv : List Char × List Char) =>
          strL "-D" ++ kv.1 ++ strL "=" ++ kv.2)).map .str))] cookie1 true incoming
    rw [configure_cmd_cookie] at hs1
    unfold _configure
    dsimp only
    rcases hr : (_issue_command_and_await_reply [(strL "type", .str (strL "configure")),
      (strL "cacheArguments",
        .arr ((defs.map (fun (kv : List Char × List Char) =>
          strL "-D" ++ kv.1 ++ strL "=" ++ kv.2)).map .str))] cookie1 true
      incoming).result with e | u
    · dsimp only
      rw [hs1]
      rfl
    · dsimp only
      rcases hr2 : (_issue_command_and_await_reply [(strL "type", .str (strL "compute"))]
        cookie2 true (_issue_command_and_await_reply [(strL "type", .str (strL "configure")),
          (strL "cacheArguments",
            .arr ((defs.map (fun (kv : List Char × List Char) =>
              strL "-D" ++ kv.1 ++ strL "=" ++ kv.2)).map .str))] cookie1 true
          incoming).rest).result with e2 | u2 <;>
      · dsimp only
        rw [hs1]
        rfl
  · intro outs1 t rest emsg hloop hty hmsg
    have heq := required_call_error_eq [(strL "type", .str (strL "configure")),
      (strL "cacheArguments",
        .arr ((defs.map (fun (kv : List Char × List Char) =>
          strL "-D" ++ kv.1 ++ strL "=" ++ kv.2)).map .str))] cookie1 incoming
      outs1 t rest emsg hloop hty hmsg
    rw [configure_cmd_cookie] at heq
    unfold _configure
    dsimp only
    rw [heq]
    dsimp only
    exact ⟨rfl, rfl⟩
  · intro outs1 t rest tv hloop hty hne
    have heq := required_call_ok_eq [(strL "type", .str (strL "configure")),
      (strL "cacheArguments",
        .arr ((defs.map (fun (kv : List Char × List Char) =>
          strL "-D" ++ kv.1 ++ strL "=" ++ kv.2)).map .str))] cookie1 incoming
      outs1 t rest tv hloop hty hne
    rw [configure_cmd_cookie] at heq
    have hs2 := call_sent [(strL "type", .str (strL "compute"))] cookie2 true rest
    rw [compute_cmd_cookie] at hs2
    unfold _configure
    dsimp only
    rw [heq]
    dsimp only
    rcases hr2 : (_issue_command_and_await_reply [(strL "type", .str (strL "compute"))]
        cookie2 true rest).result with e2 | u2 <;>
    · dsimp only
      rw [hs2]
      rfl
  · intro outs1 outs2 t1 t2 rest1 rest2 tv1 emsg hloop1 hty1 hne1 hloop2 hty2 hmsg2
    have heq1 := required_call_ok_eq [(strL "type", .str (strL "configure")),
      (strL "cacheArguments",
        .arr ((defs.map (fun (kv : List Char × List Char) =>
          strL "-D" ++ kv.1 ++ strL "=" ++ kv.2)).map .str))] cookie1 incoming
      outs1 t1 rest1 tv1 hloop1 hty1 hne1
    rw [configure_cmd_cookie] at heq1
    have heq2 := required_call_error_eq [(strL "type", .str (strL "compute"))] cookie2 rest1
      outs2 t2 rest2 emsg hloop2 hty2 hmsg2
    rw [compute_cmd_cookie] at heq2
    unfold _configure
    dsimp only
    rw [heq1]
    dsimp only
    rw [heq2]
    dsimp only
    exact ⟨rfl, rfl⟩
  · intro outs1 outs2 t1 t2 rest1 rest2 tv1 tv2 hloop1 hty1 hne1 hloop2 hty2 hne2
    have heq1 := required_call_ok_eq [(strL "type", .str (strL "configure")),
      (strL "cacheArguments",
        .arr ((defs.map (fun (kv : List Char × List Char) =>
          strL "-D" ++ kv.1 ++ strL "=" ++ kv.2)).map .str))] cookie1 incoming
      outs1 t1 rest1 tv1 hloop1 hty1 hne1
    rw [configure_cmd_cookie] at heq1
    have heq2 := required_call_ok_eq [(strL "type", .str (strL "compute"))] cookie2 rest1
      outs2 t2 rest2 tv2 hloop2 hty2 hne2
    rw [compute_cmd_cookie] at heq2
    unfold _configure
    dsimp only
    rw [heq1]
    dsimp only
    rw [heq2]

/-- Closed instance of the C6 theorem: two definitions, a failing first call
in one stream, a failing second call in another, and full success in a third. -/
theorem c6_configure_sequence_witness :
    ((_configure (some [(strL "CMAKE_BUILD_TYPE", strL "Release"), (strL "FOO", strL "bar")])
        (strL "c1") (strL "c2") []).sent.head? =
      some [(strL "type", .str (strL "configure")),
            (strL "cacheArguments",
              .arr [.str (strL "-DCMAKE_BUILD_TYPE=Release"), .str (strL "-DFOO=bar")]),
            (strL "cookie", .str (strL "c1"))]) ∧
    ((_configure (some [(strL "FOO", strL "bar")]) (strL "c1") (strL "c2")
        [Json.obj [(strL "cookie", .str (strL "c1")),
                   (strL "type", .str (strL "error")),
                   (strL "errorMessage", .str (strL "bad flag"))]]).sent =
      [[(strL "type", .str (strL "configure")),
        (strL "cacheArguments", .arr [.str (strL "-DFOO=bar")]),
        (strL "cookie", .str (strL "c1"))]] ∧
     (_configure (some [(strL "FOO", strL "bar")]) (strL "c1") (strL "c2")
        [Json.obj [(strL "cookie", .str (strL "c1")),
                   (strL "type", .str (strL "error")),
                   (strL "errorMessage", .str (strL "bad flag"))]]).result =
      .error .serverRequestError) ∧
    ((_configure (some [(strL "FOO", strL "bar")]) (strL "c1") (strL "c2")
        [Json.obj [(strL "cookie", .str (strL "c1")), (strL "type", .str (strL "reply"))],
         Json.obj [(strL "cookie", .str (strL "c2")), (strL "type", .str (strL "reply"))]]).sent =
      [[(strL "type", .str (strL "configure")),
        (strL "cacheArguments", .arr [.str (strL "-DFOO=bar")]),
        (strL "cookie", .str (strL "c1"))],
       [(strL "type", .str (strL "compute")), (strL "cookie", .str (strL "c2"))]]) ∧
    ((_configure (some [(strL "FOO", strL "bar")]) (strL "c1") (strL "c2")
        [Json.obj [(strL "cookie", .str (strL "c1")), (strL "type", .str (strL "reply"))],
         Json.obj [(strL "cookie", .str (strL "c2")),
                   (strL "type", .str (strL "error")),
                   (strL "errorMessage", .str (strL "gen failed"))]]).result =
      .error .serverRequestError ∧
     (_configure (some [(strL "FOO", strL "bar")]) (strL "c1") (strL "c2")
        [Json.obj [(strL "cookie", .str (strL "c1")), (strL "type", .str (strL "reply"))],
         Json.obj [(strL "cookie", .str (strL "c2")),
                   (strL "type", .str (strL "error")),
                   (strL "errorMessage", .str (strL "gen failed"))]]).sent =
      [[(strL "type", .str (strL "configure")),
        (strL "cacheArguments", .arr [.str (strL "-DFOO=bar")]),
        (strL "cookie", .str (strL "c1"))],
       [(strL "type", .str (strL "compute")), (strL "cookie", .str (strL "c2"))]]) ∧
    ((_configure (some [(strL "FOO", strL "bar")]) (strL "c1") (strL "c2")
        [Json.obj [(strL "cookie", .str (strL "c1")), (strL "type", .str (strL "reply"))],
         Json.obj [(strL "cookie", .str (strL "c2")), (strL "type", .str (strL "reply"))]]).result =
      .ok ()) := by
  refine ⟨?_, ?_, ?_, ?_, ?_⟩
  · have h := (c6_configure_sequence
      [(strL "CMAKE_BUILD_TYPE", strL "Release"), (strL "FOO", strL "bar")]
      (strL "c1") (strL "c2") []).1
    simpa using h
  · have h := (c6_configure_sequence [(strL "FOO", strL "bar")] (strL "c1") (strL "c2")
      [Json.obj [(strL "cookie", .str (strL "c1")),
                 (strL "type", .str (strL "error")),
                 (strL "errorMessage", .str (strL "bad flag"))]]).2.1 []
      (Json.obj [(strL "cookie", .str (strL "c1")),
                 (strL "type", .str (strL "error")),
                 (strL "errorMessage", .str (strL "bad flag"))]) [] (strL "bad flag")
      rfl rfl rfl
    simpa using h
  · have h := (c6_configure_sequence [(strL "FOO", strL "bar")] (strL "c1") (strL "c2")
      [Json.obj [(strL "cookie", .str (strL "c1")), (strL "type", .str (strL "reply"))],
       Json.obj [(strL "cookie", .str (strL "c2")), (strL "type", .str (strL "reply"))]]).2.2.1
      [] (Json.obj [(strL "cookie", .str (strL "c1")), (strL "type", .str (strL "reply"))])
      [Json.obj [(strL "cookie", .str (strL "c2")), (strL "type", .str (strL "reply"))]]
      (.str (strL "reply")) rfl rfl (by decide)
    simpa using h
  · have h := (c6_configure_sequence [(strL "FOO", strL "bar")] (strL "c1") (strL "c2")
      [Json.obj [(strL "cookie", .str (strL "c1")), (strL "type", .str (strL "reply"))],
       Json.obj [(strL "cookie", .str (strL "c2")),
                 (strL "type", .str (strL "error")),
                 (strL "errorMessage", .str (strL "gen failed"))]]).2.2.2.1
      [] []
      (Json.obj [(strL "cookie", .str (strL "c1")), (strL "type", .str (strL "reply"))])
      (Json.obj [(strL "cookie", .str (strL "c2")),
                 (strL "type", .str (strL "error")),
                 (strL "errorMessage", .str (strL "gen failed"))])
      [Json.obj [(strL "cookie", .str (strL "c2")),
                 (strL "type", .str (strL "error")),
                 (strL "errorMessage", .str (strL "gen failed"))]] []
      (.str (strL "reply")) (strL "gen failed")
      rfl rfl (by decide) rfl rfl rfl
    simpa using h
  · have h := (c6_configure_sequence [(strL "FOO", strL "bar")] (strL "c1") (strL "c2")
      [Json.obj [(strL "cookie", .str (strL "c1")), (strL "type", .str (strL "reply"))],
       Json.obj [(strL "cookie", .str (strL "c2")), (strL "type", .str (strL "reply"))]]).2.2.2.2
      [] []
      (Json.obj [(strL "cookie", .str (strL "c1")), (strL "type", .str (strL "reply"))])
      (Json.obj [(strL "cookie", .str (strL "c2")), (strL "type", .str (strL "reply"))])
      [Json.obj [(strL "cookie", .str (strL "c2")), (strL "type", .str (strL "reply"))]] []
      (.str (strL "reply")) (.str (strL "reply"))
      rfl rfl (by decide) rfl rfl (by decide)
    simpa using h

end CMakeServerSpec
